import Mathlib

/-!
# Verification of the `axelrod` ResultSet engine (`src/axelrod/result_set.py`)

This file shallowly embeds the result-transformation engine of the repository:
the reshaping of raw repetition-major outcome tensors into player-major
canonical tensors (`ResultSet._results`), the payoff-difference reducers
(`ResultSet._payoff_diffs_matrix`, `ResultSet._score_diffs`), the construction
logic of `ResultSet.__init__`, and the `ResultSet.csv` exporter.

Modelling conventions:
* Metric values are rationals (`ℚ`): the Python code works with exact integer
  inputs and single divisions, and the spec's floating-point tolerance claims
  become exact statements.
* Python list indexing that can raise `IndexError` is modelled with
  `Option`-returning access (`getElem?` / `listSet?`); a raised exception
  anywhere makes the whole operation `none`.
* The outcome bundle (a Python dict) is an association list
  `List (String × _)`; Python dicts cannot carry duplicate keys, which enters
  theorems as a `Nodup` hypothesis on the key list.
* The `axelrod.payoff` and `axelrod.cooperation` modules are not under `src/`;
  the functions the engine calls from them are modelled from the spec (each
  such definition carries a doc comment starting `Modelled from the spec:`).
  The external statistics provider (standard deviation, eigenvector routine)
  is abstracted as function parameters, following spec §9.
-/

/-- A raw repetition matrix (one `[N][N]` layer) or any 2-d list of values. -/
abbrev Mat2 : Type := List (List ℚ)

/-- A 3-d tensor of values: repetition-major `[R][N][N]` raw input, or
player-major `[N][N][R]` canonical output. -/
abbrev Mat3 : Type := List (List (List ℚ))

/-- Arithmetic mean, as computed by `numpy.mean` on a nonempty list:
sum divided by length.  (On the empty list `numpy` produces NaN; this model
returns `0`, and every theorem that touches a mean assumes at least one
repetition.) -/
def mean (l : List ℚ) : ℚ := l.sum / l.length

/-- Python list item assignment `l[n] = v`: succeeds exactly when `n` is in
range, raising `IndexError` (modelled as `none`) otherwise. -/
def listSet? {α : Type} (l : List α) (n : Nat) (v : α) : Option (List α) :=
  if n < l.length then some (l.set n v) else none

/-- Option-valued `map` mirroring a Python loop that builds a list and may
raise: the first failure aborts the whole computation. -/
def mapO {α β : Type} (f : α → Option β) : List α → Option (List β)
  | [] => some []
  | x :: xs => do
      let y ← f x
      let ys ← mapO f xs
      pure (y :: ys)

/-- Read `t[i][j][r]` with Python `IndexError` semantics. -/
def get3? (t : Mat3) (i j r : Nat) : Option ℚ := do
  let row ← t[i]?
  let c ← row[j]?
  getElem? c r

/-- The list at position `(i, j)` of a 3-d tensor (with `[]` default). -/
def cell (t : Mat3) (i j : Nat) : List ℚ := (t.getD i []).getD j []

/-- The value at `(i, j, r)` of a 3-d tensor (with `0` default). -/
def cellVal (t : Mat3) (i j r : Nat) : ℚ := (cell t i j).getD r 0

/-- The value at `(i, j)` of a raw repetition matrix (with `0` default). -/
def rawVal (rm : Mat2) (i j : Nat) : ℚ := (rm.getD i []).getD j 0

/-- `ResultSet._null_results_matrix`: an `[N][N][R]` tensor fully populated
with zeros, one row per player, one element per opponent, one value slot per
repetition. -/
def _null_results_matrix (nplayers repetitions : Nat) : Mat3 :=
  (List.range nplayers).map (fun _ =>
    (List.range nplayers).map (fun _ =>
      (List.range repetitions).map (fun _ => (0 : ℚ))))

/-- One step of the copy loop body of `ResultSet._results`:
`matrix[i][j][index] = result_matrix[i][j]`.  Reads from the raw repetition
matrix and the item assignment both follow Python `IndexError` semantics. -/
def copyEntry (idx : Nat) (rm : Mat2) (i j : Nat) (m : Mat3) : Option Mat3 := do
  let rrow ← rm[i]?
  let v ← rrow[j]?
  let mrow ← m[i]?
  let c ← mrow[j]?
  let c2 ← listSet? c idx v
  some (m.set i (mrow.set j c2))

/-- The inner `for j in range(len(self.players))` loop of `ResultSet._results`,
over an explicit list of column indices. -/
def copyCells (idx : Nat) (rm : Mat2) (i : Nat) : List Nat → Mat3 → Option Mat3
  | [], m => some m
  | j :: js, m => do
      let m1 ← copyEntry idx rm i j m
      copyCells idx rm i js m1

/-- The `for i in range(len(self.players))` loop of `ResultSet._results`,
over an explicit list of row indices. -/
def copyRows (idx : Nat) (rm : Mat2) (nplayers : Nat) :
    List Nat → Mat3 → Option Mat3
  | [], m => some m
  | i :: is, m => do
      let m1 ← copyCells idx rm i (List.range nplayers) m
      copyRows idx rm nplayers is m1

/-- Copy one raw repetition matrix into repetition slot `idx` of the canonical
tensor: the full double loop of `ResultSet._results` for one repetition. -/
def copyMatrix (nplayers idx : Nat) (rm : Mat2) (m : Mat3) : Option Mat3 :=
  copyRows idx rm nplayers (List.range nplayers) m

/-- The `for index, result_matrix in enumerate(result_list)` loop of
`ResultSet._results`, over an already-enumerated list. -/
def copyReps (nplayers : Nat) : List (Nat × Mat2) → Mat3 → Option Mat3
  | [], m => some m
  | (idx, rm) :: rest, m => do
      let m1 ← copyMatrix nplayers idx rm m
      copyReps nplayers rest m1

/-- Reshape one channel of the outcome bundle: start from the null `[N][N][R]`
matrix and copy every enumerated repetition matrix into it. -/
def reshapeChannel (nplayers repetitions : Nat) (result_list : List Mat2) :
    Option Mat3 :=
  copyReps nplayers result_list.enum (_null_results_matrix nplayers repetitions)

/-- `ResultSet._results`: reshape every channel of the outcome bundle.
The Python code assigns `results[result_type] = matrix` *inside* the
repetition loop, so a channel whose repetition list is empty is never added
to the results dictionary. -/
def _results (nplayers repetitions : Nat) :
    List (String × List Mat2) → Option (List (String × Mat3))
  | [] => some []
  | ch :: rest => do
      let m ← reshapeChannel nplayers repetitions ch.2
      let others ← _results nplayers repetitions rest
      if ch.2.isEmpty then some others else some ((ch.1, m) :: others)

/-- `ResultSet._score_diffs`: for each player, append for every opponent and
every repetition the per-turn payoff difference
`(payoff[player][opponent][repetition] - payoff[opponent][player][repetition])
/ turns`, reading the canonical payoff tensor with Python `IndexError`
semantics. -/
def _score_diffs (nplayers repetitions turns : Nat) (payoff : Mat3) :
    Option Mat2 :=
  mapO (fun player =>
      (mapO (fun opponent =>
          mapO (fun repetition => do
              let a ← get3? payoff player opponent repetition
              let b ← get3? payoff opponent player repetition
              pure ((a - b) / (turns : ℚ)))
            (List.range repetitions))
        (List.range nplayers)).map List.flatten)
    (List.range nplayers)

/-- `ResultSet._payoff_diffs_matrix`: the `[N][N]` matrix whose
`(player, opponent)` entry is the mean over repetitions of the per-turn payoff
difference
`(payoff[player][opponent][repetition] - payoff[opponent][player][repetition])
/ turns`.  (`numpy.zeros((N, N))` is fully overwritten by the loops, so the
matrix of computed means is produced directly.) -/
def _payoff_diffs_matrix (nplayers repetitions turns : Nat) (payoff : Mat3) :
    Option Mat2 :=
  mapO (fun player =>
      (mapO (fun opponent =>
          (mapO (fun repetition => do
              let a ← get3? payoff player opponent repetition
              let b ← get3? payoff opponent player repetition
              pure ((a - b) / (turns : ℚ)))
            (List.range repetitions)).map mean)
        (List.range nplayers)))
    (List.range nplayers)

/-- Modelled from the spec: `axelrod.payoff.scores` (the `axelrod.payoff`
module is not under `src/`).  "Scores: for each player, per repetition, sum
payoff against every opponent index (including self, per raw data)", shape
`[N][R]`. -/
def payoff.scores (p : Mat3) (nplayers repetitions : Nat) : Mat2 :=
  (List.range nplayers).map (fun i =>
    (List.range repetitions).map (fun r =>
      ((List.range nplayers).map (fun j => cellVal p i j r)).sum))

/-- Modelled from the spec: `axelrod.payoff.normalised_scores` (module not
under `src/`).  "Normalized scores: divide each score by `(N-1)*T`." -/
def payoff.normalised_scores (scores : Mat2) (nplayers turns : Nat) : Mat2 :=
  scores.map (fun row => row.map (fun s => s / (((nplayers : ℚ) - 1) * turns)))

/-- Mean score of player `i` across repetitions, the sort key used by the
modelled ranking. -/
def payoff.meanScore (scores : Mat2) (i : Nat) : ℚ := mean (scores.getD i [])

/-- Modelled from the spec: `axelrod.payoff.ranking` (module not under
`src/`).  "Ranking: stable-sort player indices by descending
mean-of-normalized-score; mean computed across repetitions."  The function
receives the raw scores (as in the call site), and normalisation divides by
the positive constant `(N-1)*T`, which does not change the order; the sort
key is therefore the descending mean raw score.  `List.insertionSort` is a
stable sort. -/
def payoff.ranking (scores : Mat2) (nplayers : Nat) : List Nat :=
  List.insertionSort
    (fun i j => payoff.meanScore scores j ≤ payoff.meanScore scores i)
    (List.range nplayers)

/-- Modelled from the spec: `axelrod.payoff.ranked_names` (module not under
`src/`).  "Ranked names: apply ranking permutation to player identities." -/
def payoff.ranked_names (players : List String) (ranking : List Nat) :
    List String :=
  ranking.map (fun i => players.getD i "")

/-- Modelled from the spec: `axelrod.payoff.normalised_payoff` (module not
under `src/`).  "Payoff matrix + stddev: for each ordered pair, mean and
standard deviation across repetitions of `payoff[i][j][r] / T`."  The
standard-deviation routine is the abstracted statistics provider (spec §9). -/
def payoff.normalised_payoff (stddev : List ℚ → ℚ) (p : Mat3)
    (turns : Nat) : Mat2 × Mat2 :=
  (p.map (fun row => row.map (fun c => mean (c.map (fun v => v / (turns : ℚ))))),
   p.map (fun row => row.map (fun c => stddev (c.map (fun v => v / (turns : ℚ))))))

/-- Modelled from the spec: `axelrod.payoff.wins` (module not under `src/`).
"Win counts: for each player and repetition, count opponents `j` (any `j`,
including self — by raw data semantics) where
`payoff[i][j][r] > payoff[j][i][r]`." -/
def payoff.wins (p : Mat3) (nplayers repetitions : Nat) : List (List Nat) :=
  (List.range nplayers).map (fun i =>
    (List.range repetitions).map (fun r =>
      ((List.range nplayers).filter
        (fun j => decide (cellVal p j i r < cellVal p i j r))).length))

/-- Modelled from the spec: `axelrod.cooperation.cooperation_matrix` (the
`axelrod.cooperation` module is not under `src/`).  "Cooperation matrix: sum
over repetitions of the canonical cooperation tensor, per ordered pair." -/
def cooperation.cooperation_matrix (ct : Mat3) : Mat2 :=
  ct.map (fun row => row.map (fun c => c.sum))

/-- Modelled from the spec: `axelrod.cooperation.normalised_cooperation`
(module not under `src/`).  "Normalized cooperation: divide every entry by
`T*R`." -/
def cooperation.normalised_cooperation (cm : Mat2) (turns repetitions : Nat) :
    Mat2 :=
  cm.map (fun row => row.map (fun v => v / ((turns : ℚ) * repetitions)))

/-- Modelled from the spec: `axelrod.cooperation.vengeful_cooperation`
(module not under `src/`).  "Vengeful cooperation: affine map `v = 2*c - 1`
applied elementwise to normalized cooperation." -/
def cooperation.vengeful_cooperation (nc : Mat2) : Mat2 :=
  nc.map (fun row => row.map (fun v => 2 * v - 1))

/-- Modelled from the spec: `axelrod.cooperation.cooperating_rating` (module
not under `src/`).  "Cooperating rating: per player, sum of cooperation given
to all opponents divided by `(N-1)*T*R`." -/
def cooperation.cooperating_rating (cm : Mat2) (nplayers turns repetitions : Nat) :
    List ℚ :=
  cm.map (fun row => row.sum / (((nplayers : ℚ) - 1) * turns * repetitions))

/-- Modelled from the spec: `axelrod.cooperation.good_partner_matrix` (module
not under `src/`).  "Good-partner matrix: per ordered pair `(i,j)`, count
repetitions where player `i`'s cooperation count in that repetition ≥ player
`j`'s cooperation count in that repetition." -/
def cooperation.good_partner_matrix (ct : Mat3) (nplayers repetitions : Nat) :
    List (List Nat) :=
  (List.range nplayers).map (fun i =>
    (List.range nplayers).map (fun j =>
      ((List.range repetitions).filter
        (fun r => decide (cellVal ct j i r ≤ cellVal ct i j r))).length))

/-- Modelled from the spec: `axelrod.cooperation.good_partner_rating` (module
not under `src/`).  "Good-partner rating: per player, sum of good-partner
matrix row divided by `(N-1)*R`." -/
def cooperation.good_partner_rating (gpm : List (List Nat)) (nplayers repetitions : Nat) :
    List ℚ :=
  gpm.map (fun row => ((row.sum : ℚ)) / (((nplayers : ℚ) - 1) * repetitions))

/-- The engine state after `ResultSet.__init__`.  Fields that Python
pre-initialises to `None` and fields that are only created inside the
`'payoff'` branch (`payoff_stddevs`, `payoff_diffs_matrix`, `score_diffs` —
reading those raises `AttributeError` when the branch did not run) are all
modelled as `Option` fields, with `none` meaning "not computed". -/
structure ResultSet where
  players : List String
  nplayers : Nat
  turns : Nat
  repetitions : Nat
  results : List (String × Mat3)
  scores : Option Mat2
  normalised_scores : Option Mat2
  ranking : Option (List Nat)
  ranked_names : Option (List String)
  payoff_matrix : Option Mat2
  payoff_stddevs : Option Mat2
  wins : Option (List (List Nat))
  payoff_diffs_matrix : Option Mat2
  score_diffs : Option Mat2
  cooperation : Option Mat2
  normalised_cooperation : Option Mat2
  vengeful_cooperation : Option Mat2
  cooperating_rating : Option (List ℚ)
  good_partner_matrix : Option (List (List Nat))
  good_partner_rating : Option (List ℚ)
  eigenjesus_rating : Option (List ℚ)
  eigenmoses_rating : Option (List ℚ)
  deriving DecidableEq

/-- The state of `ResultSet.__init__` after the attribute assignments of
lines 32–51: every derived field at its `None` default. -/
def initResultSet (players : List String) (turns repetitions : Nat)
    (results : List (String × Mat3)) : ResultSet where
  players := players
  nplayers := players.length
  turns := turns
  repetitions := repetitions
  results := results
  scores := none
  normalised_scores := none
  ranking := none
  ranked_names := none
  payoff_matrix := none
  payoff_stddevs := none
  wins := none
  payoff_diffs_matrix := none
  score_diffs := none
  cooperation := none
  normalised_cooperation := none
  vengeful_cooperation := none
  cooperating_rating := none
  good_partner_matrix := none
  good_partner_rating := none
  eigenjesus_rating := none
  eigenmoses_rating := none

/-- The `if 'payoff' in self.results:` block of `ResultSet.__init__`, given
the canonical payoff tensor.  `_payoff_diffs_matrix` and `_score_diffs` are
the source functions and can raise on malformed tensors, so the block is
`Option`-valued. -/
def payoffFields (stddev : List ℚ → ℚ) (players : List String)
    (turns repetitions : Nat) (pf : Mat3) (rs : ResultSet) :
    Option ResultSet := do
  let scores := payoff.scores pf players.length repetitions
  let np := payoff.normalised_payoff stddev pf turns
  let pdm ← _payoff_diffs_matrix players.length repetitions turns pf
  let sd ← _score_diffs players.length repetitions turns pf
  some { rs with
    scores := some scores
    normalised_scores := some (payoff.normalised_scores scores players.length turns)
    ranking := some (payoff.ranking scores players.length)
    ranked_names := some (payoff.ranked_names players (payoff.ranking scores players.length))
    payoff_matrix := some np.1
    payoff_stddevs := some np.2
    wins := some (payoff.wins pf players.length repetitions)
    payoff_diffs_matrix := some pdm
    score_diffs := some sd }

/-- The `if 'cooperation' in self.results and with_morality:` block of
`ResultSet.__init__`, given the canonical cooperation tensor.  The
eigenvector routine is the abstracted external primitive (spec §1, §9). -/
def coopFields (eigenvector : Mat2 → List ℚ) (nplayers turns repetitions : Nat)
    (ct : Mat3) (rs : ResultSet) : ResultSet :=
  let cm := cooperation.cooperation_matrix ct
  let nc := cooperation.normalised_cooperation cm turns repetitions
  let vc := cooperation.vengeful_cooperation nc
  let gpm := cooperation.good_partner_matrix ct nplayers repetitions
  { rs with
    cooperation := some cm
    normalised_cooperation := some nc
    vengeful_cooperation := some vc
    cooperating_rating := some (cooperation.cooperating_rating cm nplayers turns repetitions)
    good_partner_matrix := some gpm
    good_partner_rating := some (cooperation.good_partner_rating gpm nplayers repetitions)
    eigenjesus_rating := some (eigenvector nc)
    eigenmoses_rating := some (eigenvector vc) }

/-- `ResultSet.__init__`: reshape the outcome bundle, then run the payoff
block if a `'payoff'` channel is present in the canonical results
(`if 'payoff' in self.results`, modelled by `Option.elim` on the lookup),
then run the cooperation block if a `'cooperation'` channel is present and
the morality flag is set.  A Python exception anywhere gives `none`. -/
def buildResultSet (stddev : List ℚ → ℚ) (eigenvector : Mat2 → List ℚ)
    (players : List String) (turns repetitions : Nat)
    (outcome : List (String × List Mat2)) (with_morality : Bool) :
    Option ResultSet := do
  let results ← _results players.length repetitions outcome
  let base := initResultSet players turns repetitions results
  let rs1 ← (results.lookup "payoff").elim (some base)
    (fun pf => payoffFields stddev players turns repetitions pf base)
  some ((results.lookup "cooperation").elim rs1
    (fun ct => cond with_morality
      (coopFields eigenvector players.length turns repetitions ct rs1) rs1))

/-- The lines written by `ResultSet.csv`: the header of comma-joined ranked
names, then one line per repetition holding each ranked player's stringified
normalised score for that repetition.  Reading `self.ranked_names`,
`self.ranking` or `self.normalised_scores` while still `None` raises in
Python (`join`/iteration/indexing of `None`), modelled as `none`; element
access keeps Python `IndexError` semantics. -/
def csvLines (rs : ResultSet) : Option (List String) := do
  let names ← rs.ranked_names
  let header := String.intercalate "," names
  let rows ← mapO (fun irep => do
      let ranking ← rs.ranking
      let ns ← rs.normalised_scores
      let data ← mapO (fun rank => do
          let row ← getElem? ns rank
          getElem? row irep) ranking
      pure (String.intercalate "," (data.map toString)))
    (List.range rs.repetitions)
  pure (header :: rows)

/-- `ResultSet.csv`: the csv text, each line terminated by `"\n"`
(`lineterminator="\n"`; stringified numbers never need csv quoting). -/
def csv (rs : ResultSet) : Option String :=
  (csvLines rs).map (fun L => String.join (L.map (fun s => s ++ "\n")))

/-- Clear every cooperation-derived field; used to state that building with
the morality flag off only suppresses those fields. -/
def clearMoralityFields (rs : ResultSet) : ResultSet :=
  { rs with
    cooperation := none
    normalised_cooperation := none
    vengeful_cooperation := none
    cooperating_rating := none
    good_partner_matrix := none
    good_partner_rating := none
    eigenjesus_rating := none
    eigenmoses_rating := none }

/-- Exact shape of a canonical (player-major) `[N][N][R]` tensor. -/
def shape3 (nplayers repetitions : Nat) (t : Mat3) : Prop :=
  t.length = nplayers ∧ ∀ row ∈ t, row.length = nplayers ∧
    ∀ c ∈ row, c.length = repetitions

/-- A raw repetition matrix large enough that every read
`result_matrix[i][j]` with `i, j < N` succeeds. -/
def covers (nplayers : Nat) (rm : Mat2) : Prop :=
  nplayers ≤ rm.length ∧ ∀ i < nplayers, nplayers ≤ (rm.getD i []).length

instance (nplayers repetitions : Nat) (t : Mat3) :
    Decidable (shape3 nplayers repetitions t) := by
  unfold shape3; infer_instance

instance (nplayers : Nat) (rm : Mat2) : Decidable (covers nplayers rm) := by
  unfold covers; infer_instance

/-- A trivial statistics provider used for concrete evaluations. -/
def stddev0 : List ℚ → ℚ := fun _ => 0

/-- A trivial eigenvector routine used for concrete evaluations. -/
def eigenvector0 : Mat2 → List ℚ := fun _ => []

/-- The record produced by the payoff block on top of a base state. -/
def payoffRecord (stddev : List ℚ → ℚ) (players : List String)
    (turns repetitions : Nat) (pf : Mat3) (M D : Mat2) (rs : ResultSet) :
    ResultSet :=
  { rs with
    scores := some (payoff.scores pf players.length repetitions)
    normalised_scores := some (payoff.normalised_scores
      (payoff.scores pf players.length repetitions) players.length turns)
    ranking := some (payoff.ranking
      (payoff.scores pf players.length repetitions) players.length)
    ranked_names := some (payoff.ranked_names players
      (payoff.ranking (payoff.scores pf players.length repetitions) players.length))
    payoff_matrix := some (payoff.normalised_payoff stddev pf turns).1
    payoff_stddevs := some (payoff.normalised_payoff stddev pf turns).2
    wins := some (payoff.wins pf players.length repetitions)
    payoff_diffs_matrix := some M
    score_diffs := some D }

/-- Concrete engine state used in the csv evaluation: two players `A`, `B`,
one turn, one repetition, raw payoff tensor `[[[1,2],[3,4]]]`. -/
def c6rs : ResultSet :=
  payoffRecord stddev0 ["A", "B"] 1 1 [[[(1 : ℚ)], [2]], [[3], [4]]]
    [[0, -1], [1, 0]] [[0, -1], [1, 0]]
    (initResultSet ["A", "B"] 1 1
      [("payoff", [[[(1 : ℚ)], [2]], [[3], [4]]])])

theorem getElem?_eq_some_getD {α : Type} (l : List α) (d : α) {i : Nat}
    (h : i < l.length) : l[i]? = some (l.getD i d) := by
  rw [List.getElem?_eq_getElem h, List.getD_eq_getElem?_getD,
    List.getElem?_eq_getElem h]
  rfl

theorem getD_set_eq {α : Type} (l : List α) (i a : Nat) (x d : α) :
    (l.set i x).getD a d = if i = a ∧ i < l.length then x else l.getD a d := by
  rw [List.getD_eq_getElem?_getD, List.getElem?_set]
  by_cases h1 : i = a
  · subst h1
    by_cases h2 : i < l.length
    · simp [h2]
    · simp [h2, List.getElem?_eq_none (Nat.le_of_not_lt h2),
        List.getD_eq_getElem?_getD]
  · simp [h1, List.getD_eq_getElem?_getD]

theorem getD_map_range {α : Type} (f : Nat → α) (d : α) {i N : Nat}
    (h : i < N) : ((List.range N).map f).getD i d = f i := by
  rw [List.getD_eq_getElem?_getD, List.getElem?_map, List.getElem?_range h]
  rfl

theorem shape3_row_length {N R : Nat} {m : Mat3} (hm : shape3 N R m) {i : Nat}
    (hi : i < N) : (m.getD i []).length = N := by
  have hlen : i < m.length := hm.1 ▸ hi
  have : m.getD i [] = m[i] := by
    rw [List.getD_eq_getElem?_getD, List.getElem?_eq_getElem hlen]; rfl
  rw [this]
  exact (hm.2 m[i] (List.getElem_mem hlen)).1

theorem shape3_row_mem {N R : Nat} {m : Mat3} (hm : shape3 N R m) {i : Nat}
    (hi : i < N) : m.getD i [] ∈ m := by
  have hlen : i < m.length := hm.1 ▸ hi
  have : m.getD i [] = m[i] := by
    rw [List.getD_eq_getElem?_getD, List.getElem?_eq_getElem hlen]; rfl
  rw [this]
  exact List.getElem_mem hlen

theorem shape3_cell_length {N R : Nat} {m : Mat3} (hm : shape3 N R m)
    {i j : Nat} (hi : i < N) (hj : j < N) : (cell m i j).length = R := by
  have hrow := hm.2 _ (shape3_row_mem hm hi)
  have hjlen : j < (m.getD i []).length := by rw [hrow.1]; exact hj
  have hcell : cell m i j = (m.getD i [])[j] := by
    unfold cell
    rw [List.getD_eq_getElem?_getD, List.getElem?_eq_getElem hjlen]; rfl
  rw [hcell]
  exact hrow.2 _ (List.getElem_mem hjlen)

theorem shape3_cell_mem {N R : Nat} {m : Mat3} (hm : shape3 N R m)
    {i j : Nat} (hi : i < N) (hj : j < N) : cell m i j ∈ m.getD i [] := by
  have hrow := hm.2 _ (shape3_row_mem hm hi)
  have hjlen : j < (m.getD i []).length := by rw [hrow.1]; exact hj
  have hcell : cell m i j = (m.getD i [])[j] := by
    unfold cell
    rw [List.getD_eq_getElem?_getD, List.getElem?_eq_getElem hjlen]; rfl
  rw [hcell]
  exact List.getElem_mem hjlen

theorem covers_rawVal {N : Nat} {rm : Mat2} (hrm : covers N rm) {i j : Nat}
    (hi : i < N) (hj : j < N) :
    rm[i]? = some (rm.getD i []) ∧
      (rm.getD i [])[j]? = some (rawVal rm i j) := by
  constructor
  · exact getElem?_eq_some_getD rm [] (lt_of_lt_of_le hi hrm.1)
  · exact getElem?_eq_some_getD _ 0 (lt_of_lt_of_le hj (hrm.2 i hi))

theorem copyEntry_eq {N R : Nat} {m : Mat3} {rm : Mat2} {i j idx : Nat}
    (hm : shape3 N R m) (hrm : covers N rm) (hi : i < N) (hj : j < N)
    (hidx : idx < R) :
    copyEntry idx rm i j m =
      some (m.set i ((m.getD i []).set j
        ((cell m i j).set idx (rawVal rm i j)))) := by
  obtain ⟨h1, h2⟩ := covers_rawVal hrm hi hj
  have hmi : m[i]? = some (m.getD i []) :=
    getElem?_eq_some_getD m [] (hm.1 ▸ hi)
  have hmj : (m.getD i [])[j]? = some (cell m i j) :=
    getElem?_eq_some_getD _ [] ((shape3_row_length hm hi) ▸ hj)
  have hset : listSet? (cell m i j) idx (rawVal rm i j) =
      some ((cell m i j).set idx (rawVal rm i j)) := by
    unfold listSet?
    rw [shape3_cell_length hm hi hj, if_pos hidx]
  simp only [copyEntry, h1, h2, hmi, hmj, hset, Option.bind_eq_bind,
    Option.some_bind]

theorem copyEntry_none {N R : Nat} {m : Mat3} {rm : Mat2} {i j idx : Nat}
    (hm : shape3 N R m) (hrm : covers N rm) (hi : i < N) (hj : j < N)
    (hidx : R ≤ idx) : copyEntry idx rm i j m = none := by
  obtain ⟨h1, h2⟩ := covers_rawVal hrm hi hj
  have hmi : m[i]? = some (m.getD i []) :=
    getElem?_eq_some_getD m [] (hm.1 ▸ hi)
  have hmj : (m.getD i [])[j]? = some (cell m i j) :=
    getElem?_eq_some_getD _ [] ((shape3_row_length hm hi) ▸ hj)
  have hset : listSet? (cell m i j) idx (rawVal rm i j) = none := by
    unfold listSet?
    rw [shape3_cell_length hm hi hj, if_neg (Nat.not_lt.mpr hidx)]
  simp only [copyEntry, h1, h2, hmi, hmj, hset, Option.bind_eq_bind,
    Option.some_bind, Option.none_bind]

theorem shape3_upd {N R : Nat} {m : Mat3} (hm : shape3 N R m) {i j : Nat}
    (hi : i < N) (hj : j < N) (idx : Nat) (v : ℚ) :
    shape3 N R (m.set i ((m.getD i []).set j ((cell m i j).set idx v))) := by
  refine ⟨by rw [List.length_set]; exact hm.1, ?_⟩
  intro row hrow
  rcases List.mem_or_eq_of_mem_set hrow with h | h
  · exact hm.2 row h
  · subst h
    have hr := hm.2 _ (shape3_row_mem hm hi)
    refine ⟨by rw [List.length_set]; exact hr.1, ?_⟩
    intro c hc
    rcases List.mem_or_eq_of_mem_set hc with h | h
    · exact hr.2 c h
    · subst h
      rw [List.length_set]
      exact shape3_cell_length hm hi hj

theorem cellVal_upd {N R : Nat} {m : Mat3} (hm : shape3 N R m) {i j : Nat}
    (hi : i < N) (hj : j < N) (idx : Nat) (v : ℚ) (a b r : Nat) :
    cellVal (m.set i ((m.getD i []).set j ((cell m i j).set idx v))) a b r =
      if i = a ∧ j = b ∧ idx = r ∧ idx < R then v else cellVal m a b r := by
  have hilen : i < m.length := hm.1 ▸ hi
  have hrlen : (List.getD m i []).length = N := shape3_row_length hm hi
  have hclen : ((List.getD m i []).getD j []).length = R :=
    shape3_cell_length hm hi hj
  unfold cellVal cell
  rw [getD_set_eq]
  by_cases ha : i = a
  · rw [if_pos ⟨ha, hilen⟩, getD_set_eq, hrlen]
    by_cases hb : j = b
    · rw [if_pos ⟨hb, hj⟩, getD_set_eq, hclen]
      subst ha; subst hb
      by_cases hr : idx = r ∧ idx < R
      · rw [if_pos hr, if_pos ⟨rfl, rfl, hr⟩]
      · rw [if_neg hr, if_neg (by tauto)]
    · subst ha
      rw [if_neg (by tauto), if_neg (by tauto)]
  · rw [if_neg (by tauto), if_neg (by tauto)]

theorem copyCells_eq {N R : Nat} {rm : Mat2} (hrm : covers N rm)
    {i idx : Nat} (hi : i < N) (hidx : idx < R) :
    ∀ (js : List Nat) (m : Mat3), (∀ j ∈ js, j < N) → shape3 N R m →
    ∃ m2, copyCells idx rm i js m = some m2 ∧ shape3 N R m2 ∧
      ∀ a b r, cellVal m2 a b r =
        if a = i ∧ b ∈ js ∧ r = idx then rawVal rm a b
        else cellVal m a b r := by
  intro js
  induction js with
  | nil =>
    intro m _ hm
    exact ⟨m, rfl, hm, fun a b r => by simp⟩
  | cons j js ih =>
    intro m hjs hm
    have hj : j < N := hjs j (by simp)
    set m1 := m.set i ((m.getD i []).set j ((cell m i j).set idx (rawVal rm i j)))
      with hm1def
    have hce := copyEntry_eq hm hrm hi hj hidx
    have hm1 : shape3 N R m1 := shape3_upd hm hi hj idx _
    obtain ⟨m2, hrun, hm2, hvals⟩ :=
      ih m1 (fun x hx => hjs x (by simp [hx])) hm1
    refine ⟨m2, ?_, hm2, ?_⟩
    · simp only [copyCells, hce, Option.bind_eq_bind, Option.some_bind]
      exact hrun
    · intro a b r
      rw [hvals a b r, hm1def]
      rw [cellVal_upd hm hi hj idx (rawVal rm i j) a b r]
      by_cases h1 : a = i ∧ b ∈ js ∧ r = idx
      · rw [if_pos h1, if_pos ⟨h1.1, by simp [h1.2.1], h1.2.2⟩]
      · rw [if_neg h1]
        by_cases h2 : i = a ∧ j = b ∧ idx = r ∧ idx < R
        · rw [if_pos h2, if_pos ⟨h2.1.symm, by simp [h2.2.1.symm], h2.2.2.1.symm⟩,
            h2.1, h2.2.1]
        · rw [if_neg h2, if_neg]
          intro hcon
          rcases hcon with ⟨hai, hb, hr⟩
          rcases List.mem_cons.mp hb with hbj | hbjs
          · exact h2 ⟨hai.symm, hbj.symm, hr.symm, hidx⟩
          · exact h1 ⟨hai, hbjs, hr⟩

theorem copyRows_eq {N R : Nat} {rm : Mat2} (hrm : covers N rm)
    {idx : Nat} (hidx : idx < R) :
    ∀ (is : List Nat) (m : Mat3), (∀ i ∈ is, i < N) → shape3 N R m →
    ∃ m2, copyRows idx rm N is m = some m2 ∧ shape3 N R m2 ∧
      ∀ a b r, cellVal m2 a b r =
        if a ∈ is ∧ b < N ∧ r = idx then rawVal rm a b
        else cellVal m a b r := by
  intro is
  induction is with
  | nil =>
    intro m _ hm
    exact ⟨m, rfl, hm, fun a b r => by simp⟩
  | cons i is ih =>
    intro m his hm
    have hi : i < N := his i (by simp)
    obtain ⟨m1, hrun1, hm1, hvals1⟩ :=
      copyCells_eq hrm hi hidx (List.range N) m
        (fun x hx => List.mem_range.mp hx) hm
    obtain ⟨m2, hrun2, hm2, hvals2⟩ :=
      ih m1 (fun x hx => his x (by simp [hx])) hm1
    refine ⟨m2, ?_, hm2, ?_⟩
    · simp only [copyRows, hrun1, Option.bind_eq_bind, Option.some_bind]
      exact hrun2
    · intro a b r
      rw [hvals2 a b r, hvals1 a b r]
      by_cases h1 : a ∈ is ∧ b < N ∧ r = idx
      · rw [if_pos h1, if_pos ⟨by simp [h1.1], h1.2.1, h1.2.2⟩]
      · rw [if_neg h1]
        by_cases h2 : a = i ∧ b ∈ List.range N ∧ r = idx
        · rw [if_pos h2,
            if_pos ⟨by simp [h2.1], List.mem_range.mp h2.2.1, h2.2.2⟩]
        · rw [if_neg h2, if_neg]
          intro hcon
          rcases hcon with ⟨hai, hb, hr⟩
          rcases List.mem_cons.mp hai with hii | hiis
          · exact h2 ⟨hii, List.mem_range.mpr hb, hr⟩
          · exact h1 ⟨hiis, hb, hr⟩

theorem copyMatrix_eq {N R : Nat} {rm : Mat2} (hrm : covers N rm)
    {idx : Nat} (hidx : idx < R) (m : Mat3) (hm : shape3 N R m) :
    ∃ m2, copyMatrix N idx rm m = some m2 ∧ shape3 N R m2 ∧
      ∀ a b r, cellVal m2 a b r =
        if a < N ∧ b < N ∧ r = idx then rawVal rm a b
        else cellVal m a b r := by
  obtain ⟨m2, hrun, hm2, hvals⟩ :=
    copyRows_eq hrm hidx (List.range N) m (fun x hx => List.mem_range.mp hx) hm
  refine ⟨m2, hrun, hm2, ?_⟩
  intro a b r
  rw [hvals a b r]
  by_cases h : a < N ∧ b < N ∧ r = idx
  · rw [if_pos h, if_pos ⟨List.mem_range.mpr h.1, h.2⟩]
  · rw [if_neg h, if_neg (fun hcon => h ⟨List.mem_range.mp hcon.1, hcon.2⟩)]

theorem copyReps_eq {N R : Nat} :
    ∀ (rl : List Mat2) (s : Nat) (m : Mat3), shape3 N R m →
      (∀ rm ∈ rl, covers N rm) → s + rl.length ≤ R →
      ∃ m2, copyReps N (rl.enumFrom s) m = some m2 ∧ shape3 N R m2 ∧
        ∀ a b r, a < N → b < N →
          cellVal m2 a b r =
            if s ≤ r ∧ r < s + rl.length then rawVal (rl.getD (r - s) []) a b
            else cellVal m a b r := by
  intro rl
  induction rl with
  | nil =>
    intro s m hm _ _
    refine ⟨m, rfl, hm, fun a b r _ _ => ?_⟩
    simp only [List.length_nil, Nat.add_zero]
    rw [if_neg (by omega)]
  | cons rm rl ih =>
    intro s m hm hcov hle
    have hsR : s < R := by
      simp only [List.length_cons] at hle
      omega
    obtain ⟨m1, hrun1, hm1, hvals1⟩ :=
      copyMatrix_eq (hcov rm (by simp)) hsR m hm
    obtain ⟨m2, hrun2, hm2, hvals2⟩ :=
      ih (s + 1) m1 hm1 (fun x hx => hcov x (by simp [hx]))
        (by simp only [List.length_cons] at hle; omega)
    refine ⟨m2, ?_, hm2, ?_⟩
    · simp only [List.enumFrom_cons, copyReps, hrun1, Option.bind_eq_bind,
        Option.some_bind]
      exact hrun2
    · intro a b r ha hb
      rw [hvals2 a b r ha hb, hvals1 a b r]
      simp only [List.length_cons]
      by_cases h1 : s + 1 ≤ r ∧ r < s + 1 + rl.length
      · rw [if_pos h1, if_pos (by omega)]
        have hsub : r - s = (r - (s + 1)) + 1 := by omega
        rw [hsub]
        rfl
      · rw [if_neg h1]
        by_cases h2 : a < N ∧ b < N ∧ r = s
        · rw [if_pos h2, if_pos (by omega)]
          have hsub : r - s = 0 := by omega
          rw [hsub]
          rfl
        · have hrs : ¬ r = s := fun hcon => h2 ⟨ha, hb, hcon⟩
          rw [if_neg h2, if_neg (by omega)]

theorem copyMatrix_none {N R : Nat} {rm : Mat2} (hrm : covers N rm)
    (hN : 0 < N) {idx : Nat} (hidx : R ≤ idx) (m : Mat3)
    (hm : shape3 N R m) : copyMatrix N idx rm m = none := by
  obtain ⟨n, rfl⟩ : ∃ n, N = n + 1 := ⟨N - 1, by omega⟩
  have hce : copyEntry idx rm 0 0 m = none :=
    copyEntry_none hm hrm (Nat.succ_pos n) (Nat.succ_pos n) hidx
  have hcc : copyCells idx rm 0 (List.range (n + 1)) m = none := by
    rw [List.range_succ_eq_map]
    simp only [copyCells, hce, Option.bind_eq_bind, Option.none_bind]
  unfold copyMatrix
  rw [List.range_succ_eq_map]
  simp only [copyRows, hcc, Option.bind_eq_bind, Option.none_bind]

theorem copyReps_none {N R : Nat} (hN : 0 < N) :
    ∀ (rl : List Mat2) (s : Nat) (m : Mat3), shape3 N R m →
      (∀ rm ∈ rl, covers N rm) → rl ≠ [] → R < s + rl.length →
      copyReps N (rl.enumFrom s) m = none := by
  intro rl
  induction rl with
  | nil =>
    intro s m _ _ hne _
    exact absurd rfl hne
  | cons rm rl ih =>
    intro s m hm hcov _ hlt
    by_cases hsR : s < R
    · obtain ⟨m1, hrun1, hm1, _⟩ := copyMatrix_eq (hcov rm (by simp)) hsR m hm
      have hne : rl ≠ [] := by
        simp only [List.length_cons] at hlt
        have : 0 < rl.length := by omega
        exact List.ne_nil_of_length_pos this
      have hrest := ih (s + 1) m1 hm1 (fun x hx => hcov x (by simp [hx])) hne
        (by simp only [List.length_cons] at hlt; omega)
      simp only [List.enumFrom_cons, copyReps, hrun1, Option.bind_eq_bind,
        Option.some_bind]
      exact hrest
    · have hcm : copyMatrix N s rm m = none :=
        copyMatrix_none (hcov rm (by simp)) hN (Nat.le_of_not_lt hsR) m hm
      simp only [List.enumFrom_cons, copyReps, hcm, Option.bind_eq_bind,
        Option.none_bind]

theorem getD_of_le {α : Type} (l : List α) (d : α) {n : Nat}
    (h : l.length ≤ n) : l.getD n d = d := by
  rw [List.getD_eq_getElem?_getD, List.getElem?_eq_none h]
  rfl

theorem shape3_null (N R : Nat) : shape3 N R (_null_results_matrix N R) := by
  refine ⟨by simp [_null_results_matrix], ?_⟩
  intro row hrow
  unfold _null_results_matrix at hrow
  rcases List.mem_map.mp hrow with ⟨i, -, rfl⟩
  refine ⟨by simp, ?_⟩
  intro c hc
  rcases List.mem_map.mp hc with ⟨j, -, rfl⟩
  simp

theorem cellVal_null (N R a b r : Nat) :
    cellVal (_null_results_matrix N R) a b r = 0 := by
  by_cases ha : a < N
  · have h1 : (_null_results_matrix N R).getD a [] =
        (List.range N).map (fun _ => (List.range R).map (fun _ => (0 : ℚ))) := by
      unfold _null_results_matrix
      exact getD_map_range _ _ ha
    by_cases hb : b < N
    · have h2 : ((List.range N).map
          (fun _ => (List.range R).map (fun _ => (0 : ℚ)))).getD b [] =
          (List.range R).map (fun _ => (0 : ℚ)) := getD_map_range _ _ hb
      unfold cellVal cell
      rw [h1, h2]
      by_cases hr2 : r < R
      · exact getD_map_range _ _ hr2
      · exact getD_of_le _ _ (by simpa using Nat.le_of_not_lt hr2)
    · have h2 : ((List.range N).map
          (fun _ => (List.range R).map (fun _ => (0 : ℚ)))).getD b [] = [] :=
        getD_of_le _ _ (by simpa using Nat.le_of_not_lt hb)
      unfold cellVal cell
      rw [h1, h2]
      simp
  · have h1 : (_null_results_matrix N R).getD a [] = [] :=
      getD_of_le _ _ (by simp [_null_results_matrix, Nat.le_of_not_lt ha])
    unfold cellVal cell
    rw [h1]
    simp

theorem reshapeChannel_eq {N R : Nat} {rl : List Mat2}
    (hcov : ∀ rm ∈ rl, covers N rm) (hlen : rl.length ≤ R) :
    ∃ canon, reshapeChannel N R rl = some canon ∧ shape3 N R canon ∧
      ∀ a b r, a < N → b < N →
        cellVal canon a b r =
          if r < rl.length then rawVal (rl.getD r []) a b else 0 := by
  obtain ⟨m2, hrun, hm2, hvals⟩ :=
    copyReps_eq rl 0 (_null_results_matrix N R) (shape3_null N R) hcov
      (by omega)
  refine ⟨m2, hrun, hm2, ?_⟩
  intro a b r ha hb
  rw [hvals a b r ha hb, cellVal_null]
  by_cases h : r < rl.length
  · rw [if_pos ⟨Nat.zero_le r, by omega⟩, if_pos h, Nat.sub_zero]
  · rw [if_neg (by omega), if_neg h]

theorem reshapeChannel_none {N R : Nat} {rl : List Mat2} (hN : 0 < N)
    (hcov : ∀ rm ∈ rl, covers N rm) (hlen : R < rl.length) :
    reshapeChannel N R rl = none := by
  have hne : rl ≠ [] := List.ne_nil_of_length_pos (by omega)
  exact copyReps_none hN rl 0 (_null_results_matrix N R) (shape3_null N R)
    hcov hne (by omega)

theorem lookup_eq_none_of_not_mem {β : Type} :
    ∀ (l : List (String × β)) (name : String),
      name ∉ l.map Prod.fst → l.lookup name = none := by
  intro l
  induction l with
  | nil => intro name _; rfl
  | cons p l ih =>
    intro name hname
    simp only [List.map_cons, List.mem_cons] at hname
    push_neg at hname
    obtain ⟨p1, p2⟩ := p
    simp only [List.lookup]
    rw [show (name == p1) = false from beq_eq_false_iff_ne.mpr hname.1]
    exact ih name hname.2

theorem _results_keys {N R : Nat} :
    ∀ (outcome : List (String × List Mat2)) (res : List (String × Mat3)),
      _results N R outcome = some res →
      ∀ p ∈ res, p.1 ∈ outcome.map Prod.fst := by
  intro outcome
  induction outcome with
  | nil =>
    intro res h p hp
    simp only [_results] at h
    subst_eqs
    simp at hp
  | cons ch rest ih =>
    intro res h p hp
    simp only [_results, Option.bind_eq_bind] at h
    cases hcm : reshapeChannel N R ch.2 with
    | none => rw [hcm] at h; simp at h
    | some m =>
      rw [hcm, Option.some_bind] at h
      cases hrest : _results N R rest with
      | none => rw [hrest] at h; simp at h
      | some others =>
        rw [hrest, Option.some_bind] at h
        by_cases he : ch.2.isEmpty
        · rw [if_pos he] at h
          injection h with h2
          subst h2
          have := ih others hrest p hp
          simp [this]
        · rw [if_neg he] at h
          injection h with h2
          rw [← h2] at hp
          rcases List.mem_cons.mp hp with hpe | hpo
          · subst hpe; simp
          · have := ih others hrest p hpo
            simp [this]

theorem _results_some {N R : Nat} :
    ∀ (outcome : List (String × List Mat2)),
      (∀ ch ∈ outcome, (reshapeChannel N R ch.2).isSome) →
      ∃ res, _results N R outcome = some res := by
  intro outcome
  induction outcome with
  | nil => intro _; exact ⟨[], rfl⟩
  | cons ch rest ih =>
    intro hall
    obtain ⟨m, hm⟩ := Option.isSome_iff_exists.mp (hall ch (by simp))
    obtain ⟨others, hothers⟩ := ih (fun x hx => hall x (by simp [hx]))
    by_cases he : ch.2.isEmpty
    · refine ⟨others, ?_⟩
      simp only [_results, hm, hothers, Option.bind_eq_bind, Option.some_bind,
        if_pos he]
    · refine ⟨(ch.1, m) :: others, ?_⟩
      simp only [_results, hm, hothers, Option.bind_eq_bind, Option.some_bind,
        if_neg he]

theorem _results_none {N R : Nat} :
    ∀ (outcome : List (String × List Mat2)) (ch : String × List Mat2),
      ch ∈ outcome → reshapeChannel N R ch.2 = none →
      _results N R outcome = none := by
  intro outcome
  induction outcome with
  | nil => intro ch hch _; simp at hch
  | cons c rest ih =>
    intro ch hch hnone
    rcases List.mem_cons.mp hch with hc | hc
    · subst hc
      simp only [_results, hnone, Option.bind_eq_bind, Option.none_bind]
    · cases hcm : reshapeChannel N R c.2 with
      | none => simp only [_results, hcm, Option.bind_eq_bind, Option.none_bind]
      | some m =>
        simp only [_results, hcm, Option.bind_eq_bind, Option.some_bind,
          ih ch hc hnone, Option.none_bind]

theorem _results_lookup {N R : Nat} :
    ∀ (outcome : List (String × List Mat2)) (res : List (String × Mat3)),
      _results N R outcome = some res →
      (outcome.map Prod.fst).Nodup →
      ∀ name rl, (name, rl) ∈ outcome →
        res.lookup name = if rl.isEmpty then none else reshapeChannel N R rl := by
  intro outcome
  induction outcome with
  | nil =>
    intro res _ _ name rl hmem
    simp at hmem
  | cons ch rest ih =>
    intro res h hnd name rl hmem
    simp only [List.map_cons, List.nodup_cons] at hnd
    simp only [_results, Option.bind_eq_bind] at h
    cases hcm : reshapeChannel N R ch.2 with
    | none => rw [hcm] at h; simp at h
    | some m =>
      rw [hcm, Option.some_bind] at h
      cases hrest : _results N R rest with
      | none => rw [hrest] at h; simp at h
      | some others =>
        rw [hrest, Option.some_bind] at h
        rcases List.mem_cons.mp hmem with hc | hc
        · have hch1 : ch.1 = name := by rw [← hc]
          have hch2 : ch.2 = rl := by rw [← hc]
          subst hch1; subst hch2
          by_cases he : ch.2.isEmpty
          · rw [if_pos he] at h
            injection h with h2
            subst h2
            rw [if_pos he]
            refine lookup_eq_none_of_not_mem others ch.1 (fun hcon => ?_)
            rcases List.mem_map.mp hcon with ⟨p, hp, hp1⟩
            exact hnd.1 (hp1 ▸ _results_keys rest others hrest p hp)
          · rw [if_neg he] at h
            injection h with h2
            subst h2
            rw [if_neg he, hcm]
            simp [List.lookup]
        · have hne : name ≠ ch.1 := by
            intro hcon
            refine hnd.1 ?_
            rw [hcon] at hc
            exact List.mem_map.mpr ⟨(ch.1, rl), hc, rfl⟩
          by_cases he : ch.2.isEmpty
          · rw [if_pos he] at h
            injection h with h2
            subst h2
            exact ih others hrest hnd.2 name rl hc
          · rw [if_neg he] at h
            injection h with h2
            subst h2
            simp only [List.lookup]
            rw [show (name == ch.1) = false from beq_eq_false_iff_ne.mpr hne]
            exact ih others hrest hnd.2 name rl hc

theorem mapO_eq_some {α β : Type} (f : α → Option β) (g : α → β) :
    ∀ (l : List α), (∀ a ∈ l, f a = some (g a)) →
      mapO f l = some (l.map g) := by
  intro l
  induction l with
  | nil => intro _; rfl
  | cons x xs ih =>
    intro h
    simp only [mapO, h x (by simp), ih (fun a ha => h a (by simp [ha])),
      Option.bind_eq_bind, Option.some_bind, List.map_cons]
    rfl

theorem get3?_eq_some {N R : Nat} {p : Mat3} (hsh : shape3 N R p)
    {i j r : Nat} (hi : i < N) (hj : j < N) (hr : r < R) :
    get3? p i j r = some (cellVal p i j r) := by
  have h1 : p[i]? = some (p.getD i []) := getElem?_eq_some_getD p [] (hsh.1 ▸ hi)
  have h2 : (p.getD i [])[j]? = some (cell p i j) :=
    getElem?_eq_some_getD _ [] ((shape3_row_length hsh hi) ▸ hj)
  have h3 : (cell p i j)[r]? = some (cellVal p i j r) :=
    getElem?_eq_some_getD _ 0 ((shape3_cell_length hsh hi hj) ▸ hr)
  simp only [get3?, h1, h2, h3, Option.bind_eq_bind, Option.some_bind]

theorem diffs_list_eq {N R T : Nat} {p : Mat3} (hsh : shape3 N R p)
    {i j : Nat} (hi : i < N) (hj : j < N) :
    mapO (fun repetition => do
        let a ← get3? p i j repetition
        let b ← get3? p j i repetition
        pure ((a - b) / (T : ℚ)))
      (List.range R) =
      some ((List.range R).map
        (fun r => (cellVal p i j r - cellVal p j i r) / (T : ℚ))) := by
  refine mapO_eq_some _ _ _ (fun r hr => ?_)
  have hrR := List.mem_range.mp hr
  simp only [get3?_eq_some hsh hi hj hrR, get3?_eq_some hsh hj hi hrR,
    Option.bind_eq_bind, Option.some_bind]
  rfl

theorem _payoff_diffs_matrix_eq {N R T : Nat} {p : Mat3}
    (hsh : shape3 N R p) :
    _payoff_diffs_matrix N R T p =
      some ((List.range N).map (fun i => (List.range N).map (fun j =>
        mean ((List.range R).map
          (fun r => (cellVal p i j r - cellVal p j i r) / (T : ℚ)))))) := by
  unfold _payoff_diffs_matrix
  refine mapO_eq_some _ _ _ (fun i hi => ?_)
  have hiN := List.mem_range.mp hi
  have hinner :
      mapO (fun opponent =>
          (mapO (fun repetition => do
              let a ← get3? p i opponent repetition
              let b ← get3? p opponent i repetition
              pure ((a - b) / (T : ℚ)))
            (List.range R)).map mean)
        (List.range N) =
      some ((List.range N).map (fun j =>
        mean ((List.range R).map
          (fun r => (cellVal p i j r - cellVal p j i r) / (T : ℚ))))) := by
    refine mapO_eq_some _ _ _ (fun j hj => ?_)
    have hjN := List.mem_range.mp hj
    rw [diffs_list_eq hsh hiN hjN]
    rfl
  rw [hinner]

theorem _score_diffs_eq {N R T : Nat} {p : Mat3} (hsh : shape3 N R p) :
    _score_diffs N R T p =
      some ((List.range N).map (fun i =>
        ((List.range N).map (fun j => (List.range R).map
          (fun r => (cellVal p i j r - cellVal p j i r) / (T : ℚ)))).flatten)) := by
  unfold _score_diffs
  refine mapO_eq_some _ _ _ (fun i hi => ?_)
  have hiN := List.mem_range.mp hi
  have hinner :
      mapO (fun opponent =>
          mapO (fun repetition => do
              let a ← get3? p i opponent repetition
              let b ← get3? p opponent i repetition
              pure ((a - b) / (T : ℚ)))
            (List.range R))
        (List.range N) =
      some ((List.range N).map (fun j => (List.range R).map
        (fun r => (cellVal p i j r - cellVal p j i r) / (T : ℚ)))) := by
    refine mapO_eq_some _ _ _ (fun j hj => ?_)
    exact diffs_list_eq hsh hiN (List.mem_range.mp hj)
  rw [hinner]
  rfl

theorem mean_map_neg (f g : Nat → ℚ) (L : List Nat)
    (h : ∀ r ∈ L, f r = - g r) : mean (L.map f) = - mean (L.map g) := by
  have hmap : L.map f = (L.map g).map (fun x => -x) := by
    rw [List.map_map]
    exact List.map_congr_left (fun a ha => by simp [h a ha])
  rw [hmap]
  unfold mean
  rw [List.length_map]
  have hsum : ((L.map g).map (fun x => -x)).sum = - (L.map g).sum := by
    induction (L.map g) with
    | nil => simp
    | cons x xs ih => simp [ih]; ring
  rw [hsum]
  ring

theorem length_flatten_uniform {α : Type} (R : Nat) :
    ∀ (L : List (List α)), (∀ l ∈ L, l.length = R) →
      L.flatten.length = L.length * R := by
  intro L
  induction L with
  | nil => intro _; simp
  | cons x L ih =>
    intro h
    simp only [List.flatten_cons, List.length_append, List.length_cons,
      ih (fun l hl => h l (by simp [hl])), h x (by simp)]
    ring

theorem getD_flatten_uniform {α : Type} (d : α) (R : Nat) :
    ∀ (L : List (List α)) (k r : Nat), (∀ l ∈ L, l.length = R) →
      k < L.length → r < R →
      (L.flatten).getD (k * R + r) d = (L.getD k []).getD r d := by
  intro L
  induction L with
  | nil => intro k r _ hk _; simp at hk
  | cons x L ih =>
    intro k r h hk hr
    have hx : x.length = R := h x (by simp)
    cases k with
    | zero =>
      simp only [List.flatten_cons, Nat.zero_mul, Nat.zero_add]
      rw [List.getD_append]
      · rfl
      · rw [hx]; exact hr
    | succ k =>
      have hidx : (k + 1) * R + r = x.length + (k * R + r) := by
        rw [hx]; ring
      simp only [List.flatten_cons]
      rw [hidx, List.getD_append_right x L.flatten d _ (Nat.le_add_right _ _),
        Nat.add_sub_cancel_left]
      have := ih k r (fun l hl => h l (by simp [hl]))
        (by simpa using hk) hr
      rw [this]
      rfl

theorem payoffFields_eq {stddev : List ℚ → ℚ} {players : List String}
    {turns repetitions : Nat} {pf : Mat3} {M D : Mat2} (rs : ResultSet)
    (hpdm : _payoff_diffs_matrix players.length repetitions turns pf = some M)
    (hsd : _score_diffs players.length repetitions turns pf = some D) :
    payoffFields stddev players turns repetitions pf rs =
      some (payoffRecord stddev players turns repetitions pf M D rs) := by
  simp only [payoffFields, hpdm, hsd, Option.bind_eq_bind, Option.some_bind,
    payoffRecord]

theorem buildResultSet_cases {sd : List ℚ → ℚ} {ev : Mat2 → List ℚ}
    {players : List String} {turns reps : Nat}
    {outcome : List (String × List Mat2)} {wm : Bool} {rs : ResultSet}
    (hb : buildResultSet sd ev players turns reps outcome wm = some rs) :
    ∃ results rs1,
      _results players.length reps outcome = some results ∧
      ((∃ pf M D, results.lookup "payoff" = some pf ∧
          _payoff_diffs_matrix players.length reps turns pf = some M ∧
          _score_diffs players.length reps turns pf = some D ∧
          rs1 = payoffRecord sd players turns reps pf M D
            (initResultSet players turns reps results)) ∨
        (results.lookup "payoff" = none ∧
          rs1 = initResultSet players turns reps results)) ∧
      ((∃ ct, results.lookup "cooperation" = some ct ∧ wm = true ∧
          rs = coopFields ev players.length turns reps ct rs1) ∨
        ((results.lookup "cooperation" = none ∨ wm = false) ∧ rs = rs1)) := by
  unfold buildResultSet at hb
  cases hres : _results players.length reps outcome with
  | none => rw [hres] at hb; simp at hb
  | some results =>
    rw [hres] at hb
    simp only [Option.bind_eq_bind, Option.some_bind] at hb
    refine ⟨results, ?_⟩
    cases hpf : results.lookup "payoff" with
    | some pf =>
      rw [hpf, Option.elim_some] at hb
      cases hpdm : _payoff_diffs_matrix players.length reps turns pf with
      | none =>
        simp only [payoffFields, hpdm, Option.bind_eq_bind, Option.none_bind]
          at hb
        simp at hb
      | some M =>
        cases hsd : _score_diffs players.length reps turns pf with
        | none =>
          simp only [payoffFields, hpdm, hsd, Option.bind_eq_bind,
            Option.some_bind, Option.none_bind] at hb
          simp at hb
        | some D =>
          rw [payoffFields_eq _ hpdm hsd] at hb
          simp only [Option.bind_eq_bind, Option.some_bind] at hb
          refine ⟨payoffRecord sd players turns reps pf M D
            (initResultSet players turns reps results), rfl,
            Or.inl ⟨pf, M, D, rfl, hpdm, hsd, rfl⟩, ?_⟩
          cases hct : results.lookup "cooperation" with
          | some ct =>
            rw [hct, Option.elim_some] at hb
            cases hwm : wm with
            | true =>
              rw [hwm] at hb
              injection hb with h2
              exact Or.inl ⟨ct, rfl, rfl, h2.symm⟩
            | false =>
              rw [hwm] at hb
              injection hb with h2
              exact Or.inr ⟨Or.inr rfl, h2.symm⟩
          | none =>
            rw [hct, Option.elim_none] at hb
            injection hb with h2
            exact Or.inr ⟨Or.inl rfl, h2.symm⟩
    | none =>
      rw [hpf, Option.elim_none] at hb
      simp only [Option.some_bind] at hb
      refine ⟨initResultSet players turns reps results, rfl,
        Or.inr ⟨rfl, rfl⟩, ?_⟩
      cases hct : results.lookup "cooperation" with
      | some ct =>
        rw [hct, Option.elim_some] at hb
        cases hwm : wm with
        | true =>
          rw [hwm] at hb
          injection hb with h2
          exact Or.inl ⟨ct, rfl, rfl, h2.symm⟩
        | false =>
          rw [hwm] at hb
          injection hb with h2
          exact Or.inr ⟨Or.inr rfl, h2.symm⟩
      | none =>
        rw [hct, Option.elim_none] at hb
        injection hb with h2
        exact Or.inr ⟨Or.inl rfl, h2.symm⟩

theorem build_results_eq {sd : List ℚ → ℚ} {ev : Mat2 → List ℚ}
    {players : List String} {turns reps : Nat}
    {outcome : List (String × List Mat2)} {wm : Bool} {rs : ResultSet}
    (hb : buildResultSet sd ev players turns reps outcome wm = some rs) :
    _results players.length reps outcome = some rs.results ∧
    rs.players = players ∧ rs.turns = turns ∧ rs.repetitions = reps := by
  obtain ⟨results, rs1, hres, hpay, hcoop⟩ := buildResultSet_cases hb
  have h1 : rs1.results = results ∧ rs1.players = players ∧
      rs1.turns = turns ∧ rs1.repetitions = reps := by
    rcases hpay with ⟨pf, M, D, hpf, hpdm, hsd, hrs1⟩ | ⟨hpf, hrs1⟩ <;>
      rw [hrs1] <;> exact ⟨rfl, rfl, rfl, rfl⟩
  have h2 : rs.results = rs1.results ∧ rs.players = rs1.players ∧
      rs.turns = rs1.turns ∧ rs.repetitions = rs1.repetitions := by
    rcases hcoop with ⟨ct, hct, hwm, hrs⟩ | ⟨hor, hrs⟩ <;>
      rw [hrs] <;> exact ⟨rfl, rfl, rfl, rfl⟩
  rw [h2.1, h1.1, h2.2.1, h1.2.1, h2.2.2.1, h1.2.2.1, h2.2.2.2, h1.2.2.2]
  exact ⟨hres, rfl, rfl, rfl⟩

theorem build_payoff_absent {sd : List ℚ → ℚ} {ev : Mat2 → List ℚ}
    {players : List String} {turns reps : Nat}
    {outcome : List (String × List Mat2)} {wm : Bool} {rs : ResultSet}
    (hb : buildResultSet sd ev players turns reps outcome wm = some rs)
    (hp : rs.results.lookup "payoff" = none) :
    rs.scores = none ∧ rs.normalised_scores = none ∧ rs.ranking = none ∧
    rs.ranked_names = none ∧ rs.payoff_matrix = none ∧
    rs.payoff_stddevs = none ∧ rs.wins = none ∧
    rs.payoff_diffs_matrix = none ∧ rs.score_diffs = none := by
  obtain ⟨results, rs1, hres, hpay, hcoop⟩ := buildResultSet_cases hb
  have hrsres : rs.results = rs1.results := by
    rcases hcoop with ⟨ct, hct, hwm, hrs⟩ | ⟨hor, hrs⟩ <;> rw [hrs] <;> rfl
  have hrs1res : rs1.results = results := by
    rcases hpay with ⟨pf, M, D, hpf, hpdm, hsd, hrs1⟩ | ⟨hpf, hrs1⟩ <;>
      rw [hrs1] <;> rfl
  rw [hrsres, hrs1res] at hp
  rcases hpay with ⟨pf, M, D, hpf, hpdm, hsd, hrs1⟩ | ⟨hpf, hrs1⟩
  · rw [hpf] at hp
    exact Option.noConfusion hp
  · rcases hcoop with ⟨ct, hct, hwm, hrs⟩ | ⟨hor, hrs⟩ <;> rw [hrs, hrs1] <;>
      exact ⟨rfl, rfl, rfl, rfl, rfl, rfl, rfl, rfl, rfl⟩

theorem build_coop_absent {sd : List ℚ → ℚ} {ev : Mat2 → List ℚ}
    {players : List String} {turns reps : Nat}
    {outcome : List (String × List Mat2)} {wm : Bool} {rs : ResultSet}
    (hb : buildResultSet sd ev players turns reps outcome wm = some rs)
    (hc : rs.results.lookup "cooperation" = none) :
    rs.cooperation = none ∧ rs.normalised_cooperation = none ∧
    rs.vengeful_cooperation = none ∧ rs.cooperating_rating = none ∧
    rs.good_partner_matrix = none ∧ rs.good_partner_rating = none ∧
    rs.eigenjesus_rating = none ∧ rs.eigenmoses_rating = none := by
  obtain ⟨results, rs1, hres, hpay, hcoop⟩ := buildResultSet_cases hb
  have hrsres : rs.results = rs1.results := by
    rcases hcoop with ⟨ct, hct, hwm, hrs⟩ | ⟨hor, hrs⟩ <;> rw [hrs] <;> rfl
  have hrs1res : rs1.results = results := by
    rcases hpay with ⟨pf, M, D, hpf, hpdm, hsd, hrs1⟩ | ⟨hpf, hrs1⟩ <;>
      rw [hrs1] <;> rfl
  rw [hrsres, hrs1res] at hc
  rcases hcoop with ⟨ct, hct, hwm, hrs⟩ | ⟨hor, hrs⟩
  · rw [hct] at hc
    exact Option.noConfusion hc
  · rcases hpay with ⟨pf, M, D, hpf, hpdm, hsd, hrs1⟩ | ⟨hpf, hrs1⟩ <;>
      rw [hrs, hrs1] <;>
      exact ⟨rfl, rfl, rfl, rfl, rfl, rfl, rfl, rfl⟩

theorem covers_of_square {N : Nat} {rm : Mat2} (h1 : rm.length = N)
    (h2 : ∀ row ∈ rm, row.length = N) : covers N rm := by
  refine ⟨le_of_eq h1.symm, fun i hi => ?_⟩
  have hlen : i < rm.length := h1 ▸ hi
  have heq : rm.getD i [] = rm[i] := by
    rw [List.getD_eq_getElem?_getD, List.getElem?_eq_getElem hlen]
    rfl
  rw [heq]
  exact le_of_eq (h2 _ (List.getElem_mem hlen)).symm

/-- C1: for every channel present in the outcome bundle of a valid shape
(`[R][N][N]`), the canonical tensor produced by `ResultSet._results`
satisfies `canonical[channel][i][j][r] == raw[channel][r][i][j]` for every
`r < R` and `i, j < N`: the reshaping is pure reindexing with no numeric
transformation. -/
theorem c1_reshape_roundtrip {N R : Nat} {outcome : List (String × List Mat2)}
    {res : List (String × Mat3)} {name : String} {rl : List Mat2}
    {canon : Mat3} {r i j : Nat}
    (h : _results N R outcome = some res)
    (hnd : (outcome.map Prod.fst).Nodup)
    (hmem : (name, rl) ∈ outcome)
    (hcanon : res.lookup name = some canon)
    (hlen : rl.length = R)
    (hsq : ∀ rm ∈ rl, rm.length = N ∧ ∀ row ∈ rm, row.length = N)
    (hr : r < R) (hi : i < N) (hj : j < N) :
    cellVal canon i j r = rawVal (rl.getD r []) i j := by
  have hcov : ∀ rm ∈ rl, covers N rm :=
    fun rm hrm => covers_of_square (hsq rm hrm).1 (hsq rm hrm).2
  have hlook := _results_lookup outcome res h hnd name rl hmem
  have hne : ¬ rl.isEmpty = true := by
    intro hcon
    rw [List.isEmpty_iff.mp hcon] at hlen
    simp at hlen
    omega
  rw [if_neg hne, hcanon] at hlook
  obtain ⟨canon2, hrun, hsh, hvals⟩ := reshapeChannel_eq hcov (le_of_eq hlen)
  rw [hrun] at hlook
  injection hlook with hcc
  subst hcc
  rw [hvals i j r hi hj, if_pos (hlen ▸ hr)]

/-- C1 witness: a concrete 2-player, 1-repetition payoff bundle, reshaped;
entry `(i, j, r) = (0, 1, 0)` of the canonical tensor equals raw entry
`(r, i, j) = (0, 0, 1)`. -/
theorem c1_reshape_roundtrip_witness :
    _results 2 1 [("payoff", [[[1, 2], [3, 4]]])] =
        some [("payoff", [[[1], [2]], [[3], [4]]])] ∧
      ((([("payoff", [[[1, 2], [3, 4]]])] :
          List (String × List Mat2)).map Prod.fst).Nodup) ∧
      ("payoff", [[[(1 : ℚ), 2], [3, 4]]]) ∈
        [("payoff", [[[(1 : ℚ), 2], [3, 4]]])] ∧
      ([("payoff", [[[(1 : ℚ)], [2]], [[3], [4]]])] :
          List (String × Mat3)).lookup "payoff" =
        some [[[(1 : ℚ)], [2]], [[3], [4]]] ∧
      cellVal [[[(1 : ℚ)], [2]], [[3], [4]]] 0 1 0 =
        rawVal [[(1 : ℚ), 2], [3, 4]] 0 1 :=
  ⟨rfl, by simp, List.Mem.head _, rfl,
    @c1_reshape_roundtrip 2 1
      [("payoff", [[[(1 : ℚ), 2], [3, 4]]])]
      [("payoff", [[[(1 : ℚ)], [2]], [[3], [4]]])]
      "payoff" [[[(1 : ℚ), 2], [3, 4]]] [[[(1 : ℚ)], [2]], [[3], [4]]]
      0 0 1
      rfl (by simp) (List.Mem.head _) rfl rfl (by decide) (by decide)
      (by decide) (by decide)⟩

/-- C10: a channel that maps to an empty repetition list in the outcome
bundle is entirely absent from the canonical results mapping produced by
`ResultSet._results` — exactly like a missing channel, not an all-zero
tensor. -/
theorem c10_empty_channel_absent {N R : Nat}
    {outcome : List (String × List Mat2)} {res : List (String × Mat3)}
    {name : String}
    (h : _results N R outcome = some res)
    (hnd : (outcome.map Prod.fst).Nodup)
    (hmem : (name, ([] : List Mat2)) ∈ outcome) :
    res.lookup name = none := by
  have hlook := _results_lookup outcome res h hnd name [] hmem
  simpa using hlook

/-- C10 witness: a bundle whose only channel has an empty repetition list
produces a results mapping in which that channel is absent. -/
theorem c10_empty_channel_absent_witness :
    _results 2 3 [("cooperation", ([] : List Mat2))] =
        some ([] : List (String × Mat3)) ∧
      ((([("cooperation", ([] : List Mat2))] :
          List (String × List Mat2)).map Prod.fst).Nodup) ∧
      ("cooperation", ([] : List Mat2)) ∈
        [("cooperation", ([] : List Mat2))] ∧
      (([] : List (String × Mat3)).lookup "cooperation" = none) :=
  ⟨rfl, by simp, List.Mem.head _,
    @c10_empty_channel_absent 2 3 [("cooperation", ([] : List Mat2))]
      ([] : List (String × Mat3)) "cooperation" rfl (by simp)
      (List.Mem.head _)⟩

/-- C8: for every metric channel absent from the canonical results, every
derived field depending on that channel is left at its untouched
not-computed default after construction — when the payoff channel is absent
all nine payoff-derived fields are absent, and when the cooperation channel
is absent all eight cooperation-derived fields are absent; no fabricated
zero matrices appear. -/
theorem c8_absent_channel_defaults {sd : List ℚ → ℚ} {ev : Mat2 → List ℚ}
    {players : List String} {turns reps : Nat}
    {outcome : List (String × List Mat2)} {wm : Bool} {rs : ResultSet}
    (hb : buildResultSet sd ev players turns reps outcome wm = some rs) :
    (rs.results.lookup "payoff" = none →
      rs.scores = none ∧ rs.normalised_scores = none ∧ rs.ranking = none ∧
      rs.ranked_names = none ∧ rs.payoff_matrix = none ∧
      rs.payoff_stddevs = none ∧ rs.wins = none ∧
      rs.payoff_diffs_matrix = none ∧ rs.score_diffs = none) ∧
    (rs.results.lookup "cooperation" = none →
      rs.cooperation = none ∧ rs.normalised_cooperation = none ∧
      rs.vengeful_cooperation = none ∧ rs.cooperating_rating = none ∧
      rs.good_partner_matrix = none ∧ rs.good_partner_rating = none ∧
      rs.eigenjesus_rating = none ∧ rs.eigenmoses_rating = none) :=
  ⟨fun hp => build_payoff_absent hb hp, fun hc => build_coop_absent hb hc⟩

/-- C8 witness: an engine built from an empty bundle has both channels
absent and every derived field at its default. -/
theorem c8_absent_channel_defaults_witness :
    buildResultSet stddev0 eigenvector0 ["A"] 1 1 [] true =
        some (initResultSet ["A"] 1 1 []) ∧
      ((initResultSet ["A"] 1 1 []).results.lookup "payoff" = none →
        (initResultSet ["A"] 1 1 []).scores = none ∧
        (initResultSet ["A"] 1 1 []).normalised_scores = none ∧
        (initResultSet ["A"] 1 1 []).ranking = none ∧
        (initResultSet ["A"] 1 1 []).ranked_names = none ∧
        (initResultSet ["A"] 1 1 []).payoff_matrix = none ∧
        (initResultSet ["A"] 1 1 []).payoff_stddevs = none ∧
        (initResultSet ["A"] 1 1 []).wins = none ∧
        (initResultSet ["A"] 1 1 []).payoff_diffs_matrix = none ∧
        (initResultSet ["A"] 1 1 []).score_diffs = none) ∧
      ((initResultSet ["A"] 1 1 []).results.lookup "cooperation" = none →
        (initResultSet ["A"] 1 1 []).cooperation = none ∧
        (initResultSet ["A"] 1 1 []).normalised_cooperation = none ∧
        (initResultSet ["A"] 1 1 []).vengeful_cooperation = none ∧
        (initResultSet ["A"] 1 1 []).cooperating_rating = none ∧
        (initResultSet ["A"] 1 1 []).good_partner_matrix = none ∧
        (initResultSet ["A"] 1 1 []).good_partner_rating = none ∧
        (initResultSet ["A"] 1 1 []).eigenjesus_rating = none ∧
        (initResultSet ["A"] 1 1 []).eigenmoses_rating = none) :=
  ⟨rfl, @c8_absent_channel_defaults stddev0 eigenvector0 ["A"] 1 1 [] true
    (initResultSet ["A"] 1 1 []) rfl⟩

/-- C7: invoking `ResultSet.csv` on an engine whose payoff channel was
absent (so ranked names, ranking and normalised scores were never computed)
fails rather than emitting blank or partial data. -/
theorem c7_csv_requires_payoff {sd : List ℚ → ℚ} {ev : Mat2 → List ℚ}
    {players : List String} {turns reps : Nat}
    {outcome : List (String × List Mat2)} {wm : Bool} {rs : ResultSet}
    (hb : buildResultSet sd ev players turns reps outcome wm = some rs)
    (hp : rs.results.lookup "payoff" = none) :
    csv rs = none := by
  have hnames : rs.ranked_names = none :=
    (build_payoff_absent hb hp).2.2.2.1
  simp [csv, csvLines, hnames]

/-- C7 witness: the engine built from an empty bundle has no payoff channel,
and `csv` on it fails. -/
theorem c7_csv_requires_payoff_witness :
    buildResultSet stddev0 eigenvector0 ["A"] 1 1 [] true =
        some (initResultSet ["A"] 1 1 []) ∧
      (initResultSet ["A"] 1 1 []).results.lookup "payoff" = none ∧
      csv (initResultSet ["A"] 1 1 []) = none :=
  ⟨rfl, rfl, @c7_csv_requires_payoff stddev0 eigenvector0 ["A"] 1 1 [] true
    (initResultSet ["A"] 1 1 []) rfl rfl⟩

/-- C9: building with the morality flag off yields exactly the same engine
as building with it on except that every cooperation-derived field is
cleared — the cooperation fields stay unset even when the cooperation
channel is present, and no other field is affected by the flag. -/
theorem c9_morality_flag_off (sd : List ℚ → ℚ) (ev : Mat2 → List ℚ)
    (players : List String) (turns reps : Nat)
    (outcome : List (String × List Mat2)) :
    buildResultSet sd ev players turns reps outcome false =
      Option.map clearMoralityFields
        (buildResultSet sd ev players turns reps outcome true) := by
  unfold buildResultSet
  cases hres : _results players.length reps outcome with
  | none => rfl
  | some results =>
    simp only [Option.bind_eq_bind, Option.some_bind]
    cases hpf : results.lookup "payoff" with
    | none =>
      simp only [Option.elim_none, Option.some_bind]
      cases hct : results.lookup "cooperation" with
      | none => rfl
      | some ct => rfl
    | some pf =>
      simp only [Option.elim_some]
      cases hpdm : _payoff_diffs_matrix players.length reps turns pf with
      | none =>
        simp only [payoffFields, hpdm, Option.bind_eq_bind, Option.none_bind]
        rfl
      | some M =>
        cases hsd : _score_diffs players.length reps turns pf with
        | none =>
          simp only [payoffFields, hpdm, hsd, Option.bind_eq_bind,
            Option.some_bind, Option.none_bind]
          rfl
        | some D =>
          rw [payoffFields_eq _ hpdm hsd]
          simp only [Option.bind_eq_bind, Option.some_bind]
          cases hct : results.lookup "cooperation" with
          | none => rfl
          | some ct => rfl

theorem payoff_diffs_entry {N R T : Nat} {p : Mat3} {M : Mat2} {i j : Nat}
    (hsh : shape3 N R p) (h : _payoff_diffs_matrix N R T p = some M)
    (hi : i < N) (hj : j < N) :
    (M.getD i []).getD j 0 =
      mean ((List.range R).map
        (fun r => (cellVal p i j r - cellVal p j i r) / (T : ℚ))) := by
  rw [_payoff_diffs_matrix_eq hsh] at h
  injection h with h2
  subst h2
  rw [getD_map_range _ _ hi, getD_map_range _ _ hj]

/-- C3: when the canonical payoff tensor has shape `[N][N][R]` with at least
one repetition and `T > 0`, every entry `(i, j)` of the matrix produced by
`ResultSet._payoff_diffs_matrix` equals the mean over repetitions of
`(payoff[i][j][r] - payoff[j][i][r]) / T`. -/
theorem c3_payoff_diffs_mean {N R T : Nat} {p : Mat3} {M : Mat2} {i j : Nat}
    (hT : 0 < T) (hR : 0 < R) (hsh : shape3 N R p)
    (h : _payoff_diffs_matrix N R T p = some M)
    (hi : i < N) (hj : j < N) :
    (M.getD i []).getD j 0 =
      mean ((List.range R).map
        (fun r => (cellVal p i j r - cellVal p j i r) / (T : ℚ))) :=
  payoff_diffs_entry hsh h hi hj

/-- C3 witness: the concrete 2-player, 1-repetition canonical payoff tensor
`[[[1],[2]],[[3],[4]]]` with `T = 1` yields payoff-difference entry
`(0,1) = mean [(2-3)/1] = -1`. -/
theorem c3_payoff_diffs_mean_witness :
    0 < 1 ∧ 0 < 1 ∧ shape3 2 1 [[[(1 : ℚ)], [2]], [[3], [4]]] ∧
      _payoff_diffs_matrix 2 1 1 [[[(1 : ℚ)], [2]], [[3], [4]]] =
        some [[0, -1], [1, 0]] ∧
      0 < 2 ∧ 1 < 2 ∧
      (([[0, -1], [1, 0]] : Mat2).getD 0 []).getD 1 0 =
        mean ((List.range 1).map
          (fun r => (cellVal [[[(1 : ℚ)], [2]], [[3], [4]]] 0 1 r -
            cellVal [[[(1 : ℚ)], [2]], [[3], [4]]] 1 0 r) / ((1 : Nat) : ℚ))) := by
  have hM : _payoff_diffs_matrix 2 1 1 [[[(1 : ℚ)], [2]], [[3], [4]]] =
      some [[0, -1], [1, 0]] := by
    rw [_payoff_diffs_matrix_eq
      (by decide : shape3 2 1 ([[[(1 : ℚ)], [2]], [[3], [4]]] : Mat3))]
    norm_num [List.range_succ, mean, cellVal, cell]
  exact ⟨by decide, by decide, by decide, hM, by decide, by decide,
    @c3_payoff_diffs_mean 2 1 1 [[[(1 : ℚ)], [2]], [[3], [4]]]
      [[0, -1], [1, 0]] 0 1 (by decide) (by decide) (by decide) hM
      (by decide) (by decide)⟩

/-- C4: the payoff-difference matrix is antisymmetric — in the exact
rational model, entry `(i, j)` equals the negation of entry `(j, i)`. -/
theorem c4_payoff_diffs_antisymmetry {N R T : Nat} {p : Mat3} {M : Mat2}
    {i j : Nat} (hT : 0 < T) (hsh : shape3 N R p)
    (h : _payoff_diffs_matrix N R T p = some M)
    (hi : i < N) (hj : j < N) :
    (M.getD i []).getD j 0 = - ((M.getD j []).getD i 0) := by
  rw [payoff_diffs_entry hsh h hi hj, payoff_diffs_entry hsh h hj hi]
  exact mean_map_neg _ _ _ (fun r _ => by ring)

/-- C4 witness: on the concrete tensor of the C3 scenario, entry `(0,1)`
equals `-1` and entry `(1,0)` equals `1`. -/
theorem c4_payoff_diffs_antisymmetry_witness :
    0 < 1 ∧ shape3 2 1 [[[(1 : ℚ)], [2]], [[3], [4]]] ∧
      _payoff_diffs_matrix 2 1 1 [[[(1 : ℚ)], [2]], [[3], [4]]] =
        some [[0, -1], [1, 0]] ∧
      0 < 2 ∧ 1 < 2 ∧
      (([[0, -1], [1, 0]] : Mat2).getD 0 []).getD 1 0 =
        - ((([[0, -1], [1, 0]] : Mat2).getD 1 []).getD 0 0) := by
  have hM : _payoff_diffs_matrix 2 1 1 [[[(1 : ℚ)], [2]], [[3], [4]]] =
      some [[0, -1], [1, 0]] := by
    rw [_payoff_diffs_matrix_eq
      (by decide : shape3 2 1 ([[[(1 : ℚ)], [2]], [[3], [4]]] : Mat3))]
    norm_num [List.range_succ, mean, cellVal, cell]
  exact ⟨by decide, by decide, hM, by decide, by decide,
    @c4_payoff_diffs_antisymmetry 2 1 1 [[[(1 : ℚ)], [2]], [[3], [4]]]
      [[0, -1], [1, 0]] 0 1 (by decide) (by decide) hM
      (by decide) (by decide)⟩

/-- C5: each row of `ResultSet._score_diffs` lists, per player, the
unaggregated per-turn payoff differences flattened in opponent-major,
repetition-minor order; there is one row per player, each of length exactly
`N*R`, and the self-pairing block (positions `i*R + r`) is identically 0. -/
theorem c5_score_diffs_layout {N R T : Nat} {p : Mat3} {D : Mat2}
    {i r : Nat} (hT : 0 < T) (hsh : shape3 N R p)
    (h : _score_diffs N R T p = some D) (hi : i < N) (hr : r < R) :
    D.length = N ∧
    D.getD i [] = ((List.range N).map (fun j => (List.range R).map
      (fun s => (cellVal p i j s - cellVal p j i s) / (T : ℚ)))).flatten ∧
    (D.getD i []).length = N * R ∧
    (D.getD i []).getD (i * R + r) 0 = 0 := by
  rw [_score_diffs_eq hsh] at h
  injection h with h2
  subst h2
  have hrow := getD_map_range
    (fun i => ((List.range N).map (fun j => (List.range R).map
      (fun s => (cellVal p i j s - cellVal p j i s) / (T : ℚ)))).flatten)
    ([] : List ℚ) hi
  have hunif : ∀ l ∈ (List.range N).map (fun j => (List.range R).map
      (fun s => (cellVal p i j s - cellVal p j i s) / (T : ℚ))),
      l.length = R := by
    intro l hl
    rcases List.mem_map.mp hl with ⟨j0, -, rfl⟩
    simp
  refine ⟨by simp, hrow, ?_, ?_⟩
  · rw [hrow, length_flatten_uniform R _ hunif]
    simp
  · have hiL : i < ((List.range N).map (fun j => (List.range R).map
        (fun s => (cellVal p i j s - cellVal p j i s) / (T : ℚ)))).length := by
      simpa using hi
    rw [hrow, getD_flatten_uniform 0 R _ i r hunif hiL hr,
      getD_map_range _ _ hi, getD_map_range _ _ hr]
    simp

/-- C5 witness: for the concrete tensor of the C3 scenario, player 0's row
is `[(1-1)/1, (2-3)/1] = [0, -1]`, of length `2*1`, with the self entry at
position `0*1+0` equal to 0. -/
theorem c5_score_diffs_layout_witness :
    0 < 1 ∧ shape3 2 1 [[[(1 : ℚ)], [2]], [[3], [4]]] ∧
      _score_diffs 2 1 1 [[[(1 : ℚ)], [2]], [[3], [4]]] =
        some [[0, -1], [1, 0]] ∧
      0 < 2 ∧ 0 < 1 ∧
      (([[0, -1], [1, 0]] : Mat2).length = 2 ∧
        ([[0, -1], [1, 0]] : Mat2).getD 0 [] =
          ((List.range 2).map (fun j => (List.range 1).map
            (fun s => (cellVal [[[(1 : ℚ)], [2]], [[3], [4]]] 0 j s -
              cellVal [[[(1 : ℚ)], [2]], [[3], [4]]] j 0 s) /
                ((1 : Nat) : ℚ)))).flatten ∧
        (([[0, -1], [1, 0]] : Mat2).getD 0 []).length = 2 * 1 ∧
        (([[0, -1], [1, 0]] : Mat2).getD 0 []).getD (0 * 1 + 0) 0 = 0) := by
  have hD : _score_diffs 2 1 1 [[[(1 : ℚ)], [2]], [[3], [4]]] =
      some [[0, -1], [1, 0]] := by
    rw [_score_diffs_eq
      (by decide : shape3 2 1 ([[[(1 : ℚ)], [2]], [[3], [4]]] : Mat3))]
    norm_num [List.range_succ, cellVal, cell]
  exact ⟨by decide, by decide, hD, by decide, by decide,
    @c5_score_diffs_layout 2 1 1 [[[(1 : ℚ)], [2]], [[3], [4]]]
      [[0, -1], [1, 0]] 0 0 (by decide) (by decide) hD
      (by decide) (by decide)⟩

/-- C2 counterexample: with `N = 1` player and `R = 2` configured
repetitions, a payoff channel supplying only one repetition matrix is a
malformed bundle (repetition count inconsistent with `R`), yet
`ResultSet._results` succeeds, producing the partially populated canonical
tensor `[[[5, 0]]]` (slot `r = 1` silently left at its zero default), and
full construction also succeeds with the payoff reducers having run
(`scores` is populated) — the engine neither detects the mismatch nor fails
fast. -/
theorem c2_counterexample :
    _results 1 2 [("payoff", [[[(5 : ℚ)]]])] =
        some [("payoff", [[[(5 : ℚ), 0]]])] ∧
      Option.map (fun rs => (rs.scores.isSome, rs.results.lookup "payoff"))
        (buildResultSet stddev0 eigenvector0 ["A"] 1 2
          [("payoff", [[[(5 : ℚ)]]])] true) =
        some (true, some [[[(5 : ℚ), 0]]]) := by
  have h1 : _results 1 2 [("payoff", [[[(5 : ℚ)]]])] =
      some [("payoff", [[[(5 : ℚ), 0]]])] := rfl
  refine ⟨h1, ?_⟩
  have hM : _payoff_diffs_matrix (["A"] : List String).length 2 1
      [[[(5 : ℚ), 0]]] = some [[0]] := by
    rw [_payoff_diffs_matrix_eq
      (by decide : shape3 (["A"] : List String).length 2
        ([[[(5 : ℚ), 0]]] : Mat3))]
    norm_num [List.range_succ, mean, cellVal, cell]
  have hD : _score_diffs (["A"] : List String).length 2 1
      [[[(5 : ℚ), 0]]] = some [[0, 0]] := by
    rw [_score_diffs_eq
      (by decide : shape3 (["A"] : List String).length 2
        ([[[(5 : ℚ), 0]]] : Mat3))]
    norm_num [List.range_succ, cellVal, cell]
  have hb : buildResultSet stddev0 eigenvector0 ["A"] 1 2
      [("payoff", [[[(5 : ℚ)]]])] true =
      some (payoffRecord stddev0 ["A"] 1 2 [[[(5 : ℚ), 0]]] [[0]] [[0, 0]]
        (initResultSet ["A"] 1 2 [("payoff", [[[(5 : ℚ), 0]]])])) := by
    unfold buildResultSet
    rw [show (["A"] : List String).length = 1 from rfl, h1]
    simp only [Option.bind_eq_bind, Option.some_bind]
    rw [show List.lookup "payoff" [("payoff", [[[(5 : ℚ), 0]]])] =
      some [[[(5 : ℚ), 0]]] from rfl]
    simp only [Option.elim_some]
    rw [payoffFields_eq _ hM hD]
    simp only [Option.some_bind]
    rw [show List.lookup "cooperation" [("payoff", [[[(5 : ℚ), 0]]])] =
      (none : Option Mat3) from rfl]
    simp only [Option.elim_none]
  rw [hb]
  rfl

/-- C2 amended: the reshaper does not reject repetition-count deficits — a
channel supplying `k ≤ R` repetition matrices (each covering the `N×N`
player grid) is accepted, its canonical tensor holding the raw values in
slots `r < k` and the untouched zero default in slots `k ≤ r < R`; an error
is raised only when an access falls outside the allocated containers, as
when a channel supplies more than `R` matrices (for `N ≥ 1`). -/
theorem c2_amended (N R : Nat) (outcome : List (String × List Mat2))
    (hall : ∀ ch ∈ outcome, ∀ rm ∈ ch.2, covers N rm)
    (hnd : (outcome.map Prod.fst).Nodup) :
    ((∀ ch ∈ outcome, ch.2.length ≤ R) →
      ∃ res, _results N R outcome = some res ∧
        ∀ name rl, (name, rl) ∈ outcome → rl ≠ [] →
          ∃ canon, res.lookup name = some canon ∧
            ∀ i j r, i < N → j < N → r < R →
              cellVal canon i j r =
                if r < rl.length then rawVal (rl.getD r []) i j else 0) ∧
    (0 < N → ∀ ch ∈ outcome, R < ch.2.length →
      _results N R outcome = none) := by
  constructor
  · intro hle
    obtain ⟨res, hres⟩ := _results_some outcome (fun ch hch => by
      obtain ⟨canon, hrun, -, -⟩ :=
        reshapeChannel_eq (hall ch hch) (hle ch hch)
      rw [hrun]
      rfl)
    refine ⟨res, hres, ?_⟩
    intro name rl hmem hne
    have hlook := _results_lookup outcome res hres hnd name rl hmem
    have hemp : ¬ rl.isEmpty = true := by
      intro hcon
      exact hne (List.isEmpty_iff.mp hcon)
    rw [if_neg hemp] at hlook
    obtain ⟨canon, hrun, -, hvals⟩ :=
      reshapeChannel_eq (hall (name, rl) hmem) (hle (name, rl) hmem)
    rw [hrun] at hlook
    exact ⟨canon, hlook, fun i j r hi hj _ => hvals i j r hi hj⟩
  · intro hN ch hch hlen
    exact _results_none outcome ch hch
      (reshapeChannel_none hN (hall ch hch) hlen)

/-- C2 amended witness: a channel with two repetition matrices while `R = 1`
makes `ResultSet._results` fail. -/
theorem c2_amended_witness :
    (∀ ch ∈ [("payoff", [[[(5 : ℚ)]], [[6]]])], ∀ rm ∈ ch.2, covers 1 rm) ∧
      ((([("payoff", [[[(5 : ℚ)]], [[6]]])] :
        List (String × List Mat2)).map Prod.fst).Nodup) ∧
      _results 1 1 [("payoff", [[[(5 : ℚ)]], [[6]]])] = none :=
  ⟨by decide, by simp,
    (c2_amended 1 1 [("payoff", [[[(5 : ℚ)]], [[6]]])] (by decide)
      (by simp)).2 (by decide) _ (List.Mem.head _) (by decide)⟩

theorem getD_map_of_lt {α β : Type} (f : α → β) (l : List α) (d0 : α) (d : β)
    {n : Nat} (h : n < l.length) : (l.map f).getD n d = f (l.getD n d0) := by
  rw [List.getD_eq_getElem?_getD, List.getElem?_map,
    List.getElem?_eq_getElem h, List.getD_eq_getElem?_getD,
    List.getElem?_eq_getElem h]
  rfl

theorem payoff_ranking_length (s : Mat2) (N : Nat) :
    (payoff.ranking s N).length = N := by
  simp [payoff.ranking, List.length_insertionSort]

theorem payoff_ranking_mem {s : Mat2} {N k : Nat}
    (hk : k ∈ payoff.ranking s N) : k < N := by
  unfold payoff.ranking at hk
  exact List.mem_range.mp ((List.perm_insertionSort _ _).mem_iff.mp hk)

theorem csvLines_eq {rs : ResultSet} {names : List String} {ns : Mat2}
    {rank : List Nat}
    (hnames : rs.ranked_names = some names)
    (hns : rs.normalised_scores = some ns)
    (hrank : rs.ranking = some rank)
    (hk : ∀ k ∈ rank, k < ns.length)
    (hrow : ∀ k ∈ rank, (ns.getD k []).length = rs.repetitions) :
    csvLines rs = some (String.intercalate "," names ::
      (List.range rs.repetitions).map (fun irep => String.intercalate ","
        ((rank.map (fun k => (ns.getD k []).getD irep 0)).map toString))) := by
  unfold csvLines
  rw [hnames]
  simp only [Option.bind_eq_bind, Option.some_bind]
  have hrows : mapO (fun irep => do
        let ranking ← rs.ranking
        let ns2 ← rs.normalised_scores
        let data ← mapO (fun rank2 => do
            let row ← getElem? ns2 rank2
            getElem? row irep) ranking
        pure (String.intercalate "," (data.map toString)))
      (List.range rs.repetitions) =
      some ((List.range rs.repetitions).map (fun irep =>
        String.intercalate ","
          ((rank.map (fun k => (ns.getD k []).getD irep 0)).map toString))) := by
    refine mapO_eq_some _ _ _ (fun irep hirep => ?_)
    rw [hrank, hns]
    simp only [Option.bind_eq_bind, Option.some_bind]
    have hdata : mapO (fun rank2 => do
          let row ← getElem? ns rank2
          getElem? row irep) rank =
        some (rank.map (fun k => (ns.getD k []).getD irep 0)) := by
      refine mapO_eq_some _ _ _ (fun k hkmem => ?_)
      rw [getElem?_eq_some_getD ns [] (hk k hkmem)]
      simp only [Option.bind_eq_bind, Option.some_bind]
      exact getElem?_eq_some_getD _ 0
        ((hrow k hkmem) ▸ List.mem_range.mp hirep)
    simp only [Option.bind_eq_bind] at hdata
    rw [hdata]
    rfl
  simp only [Option.bind_eq_bind] at hrows
  rw [hrows]
  rfl

/-- C6: the textual export of `ResultSet.csv` is the comma-joined ranked
player names (N of them), followed by exactly R data rows, one per
repetition, each holding exactly N comma-separated stringified
normalised-score values, the `k`-th column of row `r` being the normalised
score of the player at ranking position `k` for repetition `r`, each line
terminated by a newline. -/
theorem c6_csv_format {sd : List ℚ → ℚ} {ev : Mat2 → List ℚ}
    {players : List String} {turns reps : Nat}
    {outcome : List (String × List Mat2)} {wm : Bool} {rs : ResultSet}
    {names : List String} {ns : Mat2} {rank : List Nat}
    (hb : buildResultSet sd ev players turns reps outcome wm = some rs)
    (hnames : rs.ranked_names = some names)
    (hns : rs.normalised_scores = some ns)
    (hrank : rs.ranking = some rank) :
    names.length = players.length ∧
    rank.length = players.length ∧
    rs.repetitions = reps ∧
    csvLines rs = some (String.intercalate "," names ::
      (List.range reps).map (fun irep => String.intercalate ","
        ((rank.map (fun k => (ns.getD k []).getD irep 0)).map toString))) ∧
    csv rs = some (String.join ((String.intercalate "," names ::
      (List.range reps).map (fun irep => String.intercalate ","
        ((rank.map (fun k => (ns.getD k []).getD irep 0)).map toString))).map
      (fun s => s ++ "\n"))) := by
  obtain ⟨results, rs1, hres, hpay, hcoop⟩ := buildResultSet_cases hb
  have hpres : rs.ranked_names = rs1.ranked_names ∧
      rs.normalised_scores = rs1.normalised_scores ∧
      rs.ranking = rs1.ranking ∧ rs.repetitions = rs1.repetitions := by
    rcases hcoop with ⟨ct, hct, hwm, hrs⟩ | ⟨hor, hrs⟩ <;> rw [hrs] <;>
      exact ⟨rfl, rfl, rfl, rfl⟩
  rcases hpay with ⟨pf, M, D, hpf, hpdm, hsd, hrs1⟩ | ⟨hpf, hrs1⟩
  · have hname1 : rs.ranked_names = some (payoff.ranked_names players
        (payoff.ranking (payoff.scores pf players.length reps)
          players.length)) := by
      rw [hpres.1, hrs1]
      rfl
    have hns1 : rs.normalised_scores = some (payoff.normalised_scores
        (payoff.scores pf players.length reps) players.length turns) := by
      rw [hpres.2.1, hrs1]
      rfl
    have hrank1 : rs.ranking = some (payoff.ranking
        (payoff.scores pf players.length reps) players.length) := by
      rw [hpres.2.2.1, hrs1]
      rfl
    have hreps : rs.repetitions = reps := by
      rw [hpres.2.2.2, hrs1]
      rfl
    rw [hnames] at hname1
    rw [hns] at hns1
    rw [hrank] at hrank1
    injection hname1 with hnameseq
    injection hns1 with hnseq
    injection hrank1 with hrankeq
    subst hnameseq
    subst hnseq
    subst hrankeq
    have hNlen : (payoff.scores pf players.length reps).length =
        players.length := by
      simp [payoff.scores]
    have hnslen : (payoff.normalised_scores
        (payoff.scores pf players.length reps) players.length turns).length =
        players.length := by
      simp [payoff.normalised_scores, payoff.scores]
    have hk : ∀ k ∈ payoff.ranking (payoff.scores pf players.length reps)
        players.length,
        k < (payoff.normalised_scores (payoff.scores pf players.length reps)
          players.length turns).length := by
      intro k hkmem
      rw [hnslen]
      exact payoff_ranking_mem hkmem
    have hrow : ∀ k ∈ payoff.ranking (payoff.scores pf players.length reps)
        players.length,
        ((payoff.normalised_scores (payoff.scores pf players.length reps)
          players.length turns).getD k []).length = rs.repetitions := by
      intro k hkmem
      have hkN : k < players.length := payoff_ranking_mem hkmem
      have hklt : k < (payoff.scores pf players.length reps).length := by
        rw [hNlen]
        exact hkN
      unfold payoff.normalised_scores
      rw [getD_map_of_lt _ _ [] _ hklt]
      rw [List.length_map]
      unfold payoff.scores
      rw [getD_map_range _ _ hkN]
      rw [List.length_map, List.length_range, hreps]
    have hcl := csvLines_eq hnames hns hrank hk hrow
    rw [hreps] at hcl
    refine ⟨?_, ?_, hreps, hcl, ?_⟩
    · simp [payoff.ranked_names, payoff_ranking_length]
    · exact payoff_ranking_length _ _
    · unfold csv
      rw [hcl]
      rfl
  · have hnone : rs.ranked_names = none := by
      rw [hpres.1, hrs1]
      rfl
    rw [hnone] at hnames
    exact Option.noConfusion hnames

/-- C6 witness: the concrete two-player engine `c6rs` exports a header
`"B,A"` and one data row listing the ranked players' normalised scores for
the single repetition. -/
theorem c6_csv_format_witness :
    buildResultSet stddev0 eigenvector0 ["A", "B"] 1 1
        [("payoff", [[[(1 : ℚ), 2], [3, 4]]])] false = some c6rs ∧
      c6rs.ranked_names = some ["B", "A"] ∧
      c6rs.normalised_scores = some [[3], [7]] ∧
      c6rs.ranking = some [1, 0] ∧
      ((["B", "A"] : List String).length =
          (["A", "B"] : List String).length ∧
        ([1, 0] : List Nat).length = (["A", "B"] : List String).length ∧
        c6rs.repetitions = 1 ∧
        csvLines c6rs = some (String.intercalate "," ["B", "A"] ::
          (List.range 1).map (fun irep => String.intercalate ","
            ((([1, 0] : List Nat).map
              (fun k => (([[3], [7]] : Mat2).getD k []).getD irep 0)).map
                toString))) ∧
        csv c6rs = some (String.join ((String.intercalate "," ["B", "A"] ::
          (List.range 1).map (fun irep => String.intercalate ","
            ((([1, 0] : List Nat).map
              (fun k => (([[3], [7]] : Mat2).getD k []).getD irep 0)).map
                toString))).map (fun s => s ++ "\n")))) := by
  have hscores : payoff.scores [[[(1 : ℚ)], [2]], [[3], [4]]]
      (["A", "B"] : List String).length 1 = [[3], [7]] := by
    norm_num [payoff.scores, cellVal, cell, List.range_succ]
  have hrank0 : payoff.ranking [[(3 : ℚ)], [7]]
      (["A", "B"] : List String).length = [1, 0] := by
    norm_num [payoff.ranking, payoff.meanScore, mean, List.insertionSort,
      List.orderedInsert, List.range_succ]
  have hnames0 : payoff.ranked_names ["A", "B"] [1, 0] = ["B", "A"] := rfl
  have hns0 : payoff.normalised_scores [[(3 : ℚ)], [7]]
      (["A", "B"] : List String).length 1 = [[3], [7]] := by
    norm_num [payoff.normalised_scores]
  have hnm : c6rs.ranked_names = some ["B", "A"] := by
    show some (payoff.ranked_names ["A", "B"]
      (payoff.ranking (payoff.scores [[[(1 : ℚ)], [2]], [[3], [4]]]
        (["A", "B"] : List String).length 1)
        (["A", "B"] : List String).length)) = some ["B", "A"]
    rw [hscores, hrank0, hnames0]
  have hns2 : c6rs.normalised_scores = some [[3], [7]] := by
    show some (payoff.normalised_scores
      (payoff.scores [[[(1 : ℚ)], [2]], [[3], [4]]]
        (["A", "B"] : List String).length 1)
      (["A", "B"] : List String).length 1) = some [[3], [7]]
    rw [hscores, hns0]
  have hrk : c6rs.ranking = some [1, 0] := by
    show some (payoff.ranking (payoff.scores [[[(1 : ℚ)], [2]], [[3], [4]]]
      (["A", "B"] : List String).length 1)
      (["A", "B"] : List String).length) = some [1, 0]
    rw [hscores, hrank0]
  have hM : _payoff_diffs_matrix (["A", "B"] : List String).length 1 1
      [[[(1 : ℚ)], [2]], [[3], [4]]] = some [[0, -1], [1, 0]] := by
    rw [_payoff_diffs_matrix_eq
      (by decide : shape3 (["A", "B"] : List String).length 1
        ([[[(1 : ℚ)], [2]], [[3], [4]]] : Mat3))]
    norm_num [List.range_succ, mean, cellVal, cell]
  have hD : _score_diffs (["A", "B"] : List String).length 1 1
      [[[(1 : ℚ)], [2]], [[3], [4]]] = some [[0, -1], [1, 0]] := by
    rw [_score_diffs_eq
      (by decide : shape3 (["A", "B"] : List String).length 1
        ([[[(1 : ℚ)], [2]], [[3], [4]]] : Mat3))]
    norm_num [List.range_succ, cellVal, cell]
  have h1 : _results (["A", "B"] : List String).length 1
      [("payoff", [[[(1 : ℚ), 2], [3, 4]]])] =
      some [("payoff", [[[(1 : ℚ)], [2]], [[3], [4]]])] := rfl
  have hb : buildResultSet stddev0 eigenvector0 ["A", "B"] 1 1
      [("payoff", [[[(1 : ℚ), 2], [3, 4]]])] false = some c6rs := by
    unfold buildResultSet c6rs
    rw [h1]
    simp only [Option.bind_eq_bind, Option.some_bind]
    rw [show List.lookup "payoff"
      [("payoff", [[[(1 : ℚ)], [2]], [[3], [4]]])] =
      some [[[(1 : ℚ)], [2]], [[3], [4]]] from rfl]
    simp only [Option.elim_some]
    rw [payoffFields_eq _ hM hD]
    simp only [Option.some_bind]
    rw [show List.lookup "cooperation"
      [("payoff", [[[(1 : ℚ)], [2]], [[3], [4]]])] =
      (none : Option Mat3) from rfl]
    simp only [Option.elim_none]
  exact ⟨hb, hnm, hns2, hrk,
    @c6_csv_format stddev0 eigenvector0 ["A", "B"] 1 1
      [("payoff", [[[(1 : ℚ), 2], [3, 4]]])] false c6rs
      ["B", "A"] [[3], [7]] [1, 0] hb hnm hns2 hrk⟩
